import Mathlib

/-!
Verification of the folder-mover core (matching, destination resolution,
move/quarantine engine, report labelling) against its natural-language
specification.  The Python modules `indexer.py`, `mover.py`, `report.py` and
`types.py` are shallowly embedded: filesystem paths become lists of name
components, the filesystem becomes the (prefix-closed) set of directory paths
represented by a list of witnesses, Python dictionaries become association
lists, mutable engine state is passed explicitly, and raised exceptions become
an `Except` error type.  Only directories are modelled (the tool moves
folders), `normalize_path` and the Windows extended-length transforms are the
identity on abstract paths, and `safe_move` always succeeds (no spontaneous
I/O failure is modelled).
-/

set_option maxHeartbeats 1000000

namespace FMover

/-- A filesystem path, as its list of name components. -/
abbrev Path := List String

/-- The filesystem: a set of existing directory paths, represented by a list
of member paths.  A path exists iff it is a prefix of some listed path, so the
set of existing directories is prefix-closed, as on a real filesystem. -/
abbrev FS := List Path

/-- Existence check, the model of `os.path.exists` on directory paths. -/
def path_exists (fs : FS) (p : Path) : Bool :=
  fs.any (fun q => p.isPrefixOf q)

/-- Relocation of the directory subtree rooted at `src` to `dst`: every
existing path extending `src` is rewritten to extend `dst` instead.  The
parent of `src` is kept, and the parents of `dst` exist by prefix closure,
which models `os.makedirs(dest_parent, exist_ok=True)` before the move. -/
def do_move (fs : FS) (src dst : Path) : FS :=
  src.dropLast :: fs.map (fun q => if src.isPrefixOf q then dst ++ q.drop src.length else q)

/-- Python exception values raised by the embedded code.  `runtimeError`
models the builtin `RuntimeError`.  `resolutionExhaustedError` is modelled
from the spec: the spec names a distinct `ResolutionExhaustedError` type for
resolver exhaustion, which occurs nowhere in the source; the constructor is
included so the spec's claimed error type can be compared with the one the
code actually raises. -/
inductive PyExc where
  | runtimeError (msg : String)
  | resolutionExhaustedError (msg : String)
deriving DecidableEq, Repr

/-- The error message of `mover.py`'s exhaustion branch (quotes elided). -/
def exhausted_msg (folder_name : String) : String :=
  "Could not find unique name for " ++ folder_name ++ " after 10000 attempts"

/-- Freeness of a candidate basename on both axes, as checked by
`resolve_destination`: the path `dest_root/n` does not exist on disk and `n`
is not among the claimed names. -/
def name_free (fs : FS) (dest_root : Path) (existing : List String) (n : String) : Bool :=
  !path_exists fs (dest_root ++ [n]) && !(existing.contains n)

/-- One iteration of the suffix-probing loop body of `resolve_destination`:
build `folder_name_counter` and return it if free on both axes. -/
def try_candidate (fs : FS) (dest_root : Path) (folder_name : String)
    (existing : List String) (counter : Nat) : Option Path :=
  let suffixed_name := folder_name ++ "_" ++ toString counter
  let candidate := dest_root ++ [suffixed_name]
  if !path_exists fs candidate && !(existing.contains suffixed_name) then some candidate
  else none

/-- The suffix-probing loop of `resolve_destination` (mover.py lines
190-204).  The Python loop raises `RuntimeError` once `counter` passes
10000; the remaining allowance is the structural fuel. -/
def find_suffix (fs : FS) (dest_root : Path) (folder_name : String)
    (existing : List String) : Nat → Nat → Except PyExc Path
  | counter, 0 =>
    match try_candidate fs dest_root folder_name existing counter with
    | some p => .ok p
    | none => .error (.runtimeError (exhausted_msg folder_name))
  | counter, fuel + 1 =>
    match try_candidate fs dest_root folder_name existing counter with
    | some p => .ok p
    | none => find_suffix fs dest_root folder_name existing (counter + 1) fuel

/-- Embedding of `resolve_destination` (mover.py lines 154-204): return
`dest_root/folder_name` if free on disk and not claimed, otherwise probe
`folder_name_1`, `folder_name_2`, ... with the loop above.  Counters 1
through 10000 are probed before the `RuntimeError` is raised, matching the
`counter > 10000` guard placed after the increment in the source. -/
def resolve_destination (fs : FS) (dest_root : Path) (folder_name : String)
    (existing_names : List String) : Except PyExc Path :=
  let candidate := dest_root ++ [folder_name]
  if !path_exists fs candidate && !(existing_names.contains folder_name) then .ok candidate
  else find_suffix fs dest_root folder_name existing_names 1 9999

/-- State-passing form of `resolve_destination`, returning alongside the
result the claimed-name set as the function body leaves it.  The source
reads `existing_names` (membership tests only) and never mutates it, so the
set is returned unchanged; this form makes that frame property statable. -/
def resolve_destination_st (fs : FS) (dest_root : Path) (folder_name : String)
    (existing_names : List String) : Except PyExc (Path × List String) :=
  (resolve_destination fs dest_root folder_name existing_names).map (fun p => (p, existing_names))

/-- The candidate basename probed at index `k`: the desired name itself at
`k = 0`, and `name_k` for `k ≥ 1`. -/
def cand_name (folder_name : String) (k : Nat) : String :=
  if k = 0 then folder_name else folder_name ++ "_" ++ toString k

/-- Discriminator for the error type the spec claims resolver exhaustion
raises. -/
def raised_resolution_exhausted : Except PyExc Path → Bool
  | .error (.resolutionExhaustedError _) => true
  | _ => false

/-- A claimed-name set holding the desired name and all 10000 probed suffix
variants, used to drive the resolver to exhaustion. -/
def big_claimed : List String := (List.range 10001).map (cand_name "x")

/-- Folder record (`types.py` `FolderEntry`): basename and full path.  The
path is opaque to the matcher. -/
structure FolderEntry where
  name : String
  path : String
deriving DecidableEq, Repr

/-- Model of Python `str.lower()`: per-character case mapping (the rare
multi-character Unicode lowerings are outside the model). -/
def py_lower (s : String) : String := ⟨s.data.map Char.toLower⟩

/-- Model of the Python substring test `needle in hay`: contiguous
containment of the character sequences. -/
def str_in (needle hay : String) : Bool := decide (needle.data <:+: hay.data)

/-- The case normalization both matchers apply to CaseIDs and folder
names. -/
def norm_id (case_sensitive : Bool) (s : String) : String :=
  if case_sensitive then s else py_lower s

/-- A Python dict with string keys and list values: an association list in
key-insertion order. -/
abbrev PyDict (β : Type) := List (String × List β)

/-- The dict comprehension `{k: [] for k in ks}`: one key per distinct
element, in first-occurrence order. -/
def dict_init {β : Type} (ks : List String) : PyDict β :=
  ks.foldl (fun d k => if d.any (fun e => e.1 == k) then d else d ++ [(k, [])]) []

/-- `d[k].append(v)` for a key already present (no-op on a missing key). -/
def dict_push {β : Type} (d : PyDict β) (k : String) (v : β) : PyDict β :=
  d.map (fun e => if e.1 == k then (e.1, e.2 ++ [v]) else e)

/-- `defaultdict(list)` access-and-append: appends to the key's list,
creating the key on first use. -/
def dict_push_default {β : Type} (d : PyDict β) (k : String) (v : β) : PyDict β :=
  if d.any (fun e => e.1 == k) then dict_push d k v else d ++ [(k, [v])]

/-- Dict lookup with the empty list for a missing key. -/
def dict_get {β : Type} (d : PyDict β) (k : String) : List β :=
  ((d.find? (fun e => e.1 == k)).map (fun e => e.2)).getD []

/-- The keys of the dict, in insertion order. -/
def dict_keys {β : Type} (d : PyDict β) : List String := d.map (fun e => e.1)

/-- Key-membership test. -/
def dict_has_key {β : Type} (d : PyDict β) (k : String) : Bool :=
  d.any (fun e => e.1 == k)

/-- `max(len(cid) for cid in case_ids) if case_ids else 0` (indexer.py
252). -/
def max_length (case_ids : List String) : Nat :=
  case_ids.foldl (fun m cid => max m cid.length) 0

/-- Bucket construction (indexer.py 253-256):
`buckets[len(normalized)].append((original, normalized))` over a list of
`max_length + 1` initially empty buckets. -/
def build_buckets (prepared : List (String × String)) (maxLen : Nat) :
    List (List (String × String)) :=
  prepared.foldl (fun bs p => bs.set p.2.length (bs.getD p.2.length [] ++ [p]))
    (List.replicate (maxLen + 1) [])

/-- Cumulative buckets (indexer.py 258-264): `cumulative[k]` collects every
bucket of length at most `k`, via a running concatenation. -/
def build_cumulative (buckets : List (List (String × String))) :
    List (List (String × String)) :=
  (buckets.foldl (fun acc bucket =>
    let running := acc.2 ++ bucket
    (acc.1 ++ [running], running)) (([], []) : List (List (String × String)) ×
      List (String × String))).1

/-- The `applicable` CaseID list for one folder-name length (indexer.py
275-282), with the source's guarded indexing. -/
def applicable_ids (cumulative : List (List (String × String))) (maxLen nameLen : Nat) :
    List (String × String) :=
  if nameLen = 0 then []
  else if nameLen > maxLen then
    (if maxLen < cumulative.length then cumulative.getD maxLen [] else [])
  else
    (if nameLen < cumulative.length then cumulative.getD nameLen [] else [])

/-- Embedding of `_match_with_length_buckets` (indexer.py 227-291). -/
def _match_with_length_buckets (case_ids : List String) (folders : List FolderEntry)
    (case_sensitive : Bool) : PyDict FolderEntry :=
  let prepared_caseids := case_ids.map (fun cid => (cid, norm_id case_sensitive cid))
  let maxLen := max_length case_ids
  let cumulative := build_cumulative (build_buckets prepared_caseids maxLen)
  folders.foldl (fun results folder =>
    let folder_name := norm_id case_sensitive folder.name
    let applicable := applicable_ids cumulative maxLen folder_name.length
    applicable.foldl (fun results p =>
      if str_in p.2 folder_name then dict_push results p.1 folder else results) results)
    (dict_init case_ids)

/-- The distinct nonempty patterns entered into the Aho-Corasick automaton:
`automaton.add_word(pattern, pattern)` overwrites duplicate keys, and the
pyahocorasick library does not add empty words. -/
def aho_words (case_ids : List String) (case_sensitive : Bool) : List String :=
  ((case_ids.map (norm_id case_sensitive)).filter (fun p => !(p == ""))).dedup

/-- Modelled from the spec: the scan of the external pyahocorasick automaton
(the library is not part of this repository).  Per the spec's automaton
strategy, `automaton.iter(name)` reports every added word that occurs in
`name` as a contiguous substring; collecting the hits into a set yields the
distinct matched patterns. -/
def aho_matched_patterns (case_ids : List String) (case_sensitive : Bool)
    (folder_name : String) : List String :=
  (aho_words case_ids case_sensitive).filter (fun p => str_in p folder_name)

/-- `pattern_to_caseids` (indexer.py 195-200): a defaultdict mapping each
normalized pattern to the original CaseIDs carrying it, in input order. -/
def pattern_to_caseids (case_ids : List String) (case_sensitive : Bool) :
    PyDict String :=
  case_ids.foldl (fun d cid => dict_push_default d (norm_id case_sensitive cid) cid) []

/-- Embedding of `_match_with_ahocorasick` (indexer.py 178-224). -/
def _match_with_ahocorasick (case_ids : List String) (folders : List FolderEntry)
    (case_sensitive : Bool) : PyDict FolderEntry :=
  let p2c := pattern_to_caseids case_ids case_sensitive
  folders.foldl (fun results folder =>
    let folder_name := norm_id case_sensitive folder.name
    let matched := aho_matched_patterns case_ids case_sensitive folder_name
    matched.foldl (fun results pattern =>
      (dict_get p2c pattern).foldl (fun results cid => dict_push results cid folder) results)
      results) (dict_init case_ids)

/-- Matcher selection (`MatcherType` in indexer.py). -/
inductive MatcherKind where
  | bucket
  | aho
deriving DecidableEq, Repr

/-- Embedding of `match_caseids` (indexer.py 130-175): early return of the
all-empty dict when either input list is empty, then strategy dispatch; an
unavailable pyahocorasick (`has_ahocorasick = false`, modelling the
module-level `HAS_AHOCORASICK` flag) falls back to the bucket matcher. -/
def match_caseids (case_ids : List String) (folders : List FolderEntry)
    (case_sensitive : Bool) (matcher : MatcherKind) (has_ahocorasick : Bool) :
    PyDict FolderEntry :=
  if case_ids.isEmpty || folders.isEmpty then dict_init case_ids
  else
    match matcher with
    | .aho =>
      if !has_ahocorasick then _match_with_length_buckets case_ids folders case_sensitive
      else _match_with_ahocorasick case_ids folders case_sensitive
    | .bucket => _match_with_length_buckets case_ids folders case_sensitive

/-- Status of a folder move operation (`types.py` `MoveStatus`). -/
inductive MoveStatus where
  | success
  | success_renamed
  | skipped_missing
  | skipped_exists
  | skipped_excluded
  | skipped_resume
  | skipped_duplicate
  | error
  | dry_run
  | dry_run_renamed
  | quarantined
  | quarantined_renamed
  | dry_run_quarantine
  | dry_run_quarantine_renamed
deriving DecidableEq, Repr, Fintype

/-- All fourteen statuses, for the statistics dict initializer
`{status: 0 for status in MoveStatus}`. -/
def all_move_statuses : List MoveStatus :=
  [.success, .success_renamed, .skipped_missing, .skipped_exists, .skipped_excluded,
   .skipped_resume, .skipped_duplicate, .error, .dry_run, .dry_run_renamed,
   .quarantined, .quarantined_renamed, .dry_run_quarantine, .dry_run_quarantine_renamed]

/-- A folder that matched a CaseID (`types.py` `FolderMatch`); the source
path is an abstract component path for the engine's filesystem model. -/
structure FolderMatch where
  case_id : String
  source_path : Path
  folder_name : String
deriving DecidableEq, Repr

/-- Result of a move operation (`types.py` `MoveResult`). -/
structure MoveResult where
  case_id : String
  source_path : Path
  dest_path : Option Path
  status : MoveStatus
  message : String
deriving DecidableEq, Repr

/-- `on_dest_exists` behavior. -/
inductive DestExistsBehavior where
  | rename
  | skip
deriving DecidableEq, Repr

/-- `duplicates_action` setting. -/
inductive DuplicatesAction where
  | quarantine
  | skip
  | move_all
deriving DecidableEq, Repr

/-- Quarantine folder name (mover.py line 40). -/
def DUPLICATES_FOLDER : String := "_DUPLICATES"

/-- Rendering of an abstract path for human-readable messages. -/
def path_str (p : Path) : String := String.intercalate "/" p

/-- A glob token of the compiled `fnmatch` pattern: `*`, `?`, a bracket
class of codepoint ranges (a single character is a one-point range), or a
literal character. -/
inductive GlobTok where
  | star
  | qmark
  | cls (negated : Bool) (items : List (Char × Char))
  | lit (c : Char)
deriving DecidableEq, Repr

/-- Parse the body of a bracket class into ranges: `a-b` is a range,
anything else (including a `-` at either end) is a literal. -/
def parse_class_body : List Char → List (Char × Char)
  | [] => []
  | a :: '-' :: b :: rest => (a, b) :: parse_class_body rest
  | a :: rest => (a, a) :: parse_class_body rest

/-- Scan for the closing `]` of a bracket class, returning the body before
it and the remainder after it. -/
def scan_upto_rbracket : List Char → Option (List Char × List Char)
  | [] => none
  | ']' :: t => some ([], t)
  | c :: t => (scan_upto_rbracket t).map (fun br => (c :: br.1, br.2))

/-- Split a bracket class from the characters following `[`, with Python
`fnmatch`'s rules: an optional leading `!` negates, a `]` directly after it
is a literal member, and a missing closing `]` makes the `[` literal
(signalled by `none`). -/
def split_class (cs : List Char) : Option (Bool × List (Char × Char) × List Char) :=
  let neg_body : Bool × List Char :=
    match cs with
    | '!' :: t => (true, t)
    | _ => (false, cs)
  match neg_body.2 with
  | ']' :: t =>
    match scan_upto_rbracket t with
    | some (body, rest) => some (neg_body.1, parse_class_body (']' :: body), rest)
    | none => none
  | _ =>
    match scan_upto_rbracket neg_body.2 with
    | some (body, rest) => some (neg_body.1, parse_class_body body, rest)
    | none => none

/-- Compile a glob pattern to tokens.  The fuel is the pattern length; every
step consumes at least one character, so the fuel never runs out. -/
def compile_glob_aux : Nat → List Char → List GlobTok
  | 0, _ => []
  | _, [] => []
  | fuel + 1, '*' :: rest => .star :: compile_glob_aux fuel rest
  | fuel + 1, '?' :: rest => .qmark :: compile_glob_aux fuel rest
  | fuel + 1, '[' :: rest =>
    match split_class rest with
    | some (neg, items, after) => .cls neg items :: compile_glob_aux fuel after
    | none => .lit '[' :: compile_glob_aux fuel rest
  | fuel + 1, c :: rest => .lit c :: compile_glob_aux fuel rest

/-- Compile a glob pattern (model of `fnmatch.translate`'s pattern
vocabulary: `*`, `?`, bracket classes with ranges and `!` negation). -/
def compile_glob (cs : List Char) : List GlobTok := compile_glob_aux cs.length cs

/-- Membership of a character in a bracket class. -/
def class_match (negated : Bool) (items : List (Char × Char)) (c : Char) : Bool :=
  let hit := items.any (fun r => decide (r.1 ≤ c) && decide (c ≤ r.2))
  if negated then !hit else hit

/-- Match a compiled glob pattern against a character sequence.  Every
recursive call strictly decreases the combined length of pattern and
string, so the combined length plus one is enough fuel and the zero-fuel
branch is unreachable. -/
def toks_match_aux : Nat → List GlobTok → List Char → Bool
  | 0, _, _ => false
  | fuel + 1, ps, s =>
    match ps, s with
    | [], [] => true
    | [], _ :: _ => false
    | .star :: ps, [] => toks_match_aux fuel ps []
    | .star :: ps, c :: s =>
      toks_match_aux fuel ps (c :: s) || toks_match_aux fuel (.star :: ps) s
    | .qmark :: _, [] => false
    | .qmark :: ps, _ :: s => toks_match_aux fuel ps s
    | .cls _ _ :: _, [] => false
    | .cls neg items :: ps, c :: s => class_match neg items c && toks_match_aux fuel ps s
    | .lit _ :: _, [] => false
    | .lit a :: ps, c :: s => (a == c) && toks_match_aux fuel ps s

/-- Match a compiled glob pattern against a character sequence. -/
def toks_match (ps : List GlobTok) (s : List Char) : Bool :=
  toks_match_aux (ps.length + s.length + 1) ps s

/-- Model of `fnmatch.fnmatch` on already case-folded inputs (on POSIX,
`os.path.normcase` is the identity, and `matches_exclusion_pattern` lowers
both arguments before calling it). -/
def fnmatch (name pat : String) : Bool := toks_match (compile_glob pat.data) name.data

/-- Embedding of `matches_exclusion_pattern` (mover.py 120-151): each
pattern is tried first as a glob, then as a plain substring, both
case-insensitively; the first matching pattern is returned. -/
def matches_exclusion_pattern (folder_name : String) (patterns : List String) :
    Option String :=
  if patterns.isEmpty then none
  else
    let folder_lower := py_lower folder_name
    patterns.findSome? (fun pattern =>
      let pattern_lower := py_lower pattern
      if fnmatch folder_lower pattern_lower then some pattern
      else if str_in pattern_lower folder_lower then some pattern
      else none)

/-- The engine configuration (`FolderMover.__init__` keyword arguments).
`already_moved_paths` is the resume set; since `normalize_path` is the
identity on abstract paths, it coincides with its normalized copy. -/
structure MoverConfig where
  dest_root : Path
  dry_run : Bool
  max_moves : Option Nat
  exclude_patterns : List String
  on_dest_exists : DestExistsBehavior
  already_moved_paths : List Path
  duplicates_action : DuplicatesAction
  duplicate_case_ids : List String
deriving DecidableEq, Repr

/-- The engine's mutable session state: the filesystem plus
`_claimed_names`, `_quarantine_claimed` and `_stats`. -/
structure MoverState where
  fs : FS
  claimed_names : List String
  quarantine_claimed : List (String × List String)
  stats : List (MoveStatus × Nat)
deriving DecidableEq, Repr

/-- A fresh engine state over a filesystem: empty claimed sets and all-zero
statistics (`FolderMover.__init__`). -/
def initial_state (fs : FS) : MoverState :=
  { fs := fs, claimed_names := [], quarantine_claimed := [],
    stats := all_move_statuses.map (fun s => (s, 0)) }

/-- `self._stats[status] += 1`. -/
def bump_stats (stats : List (MoveStatus × Nat)) (s : MoveStatus) :
    List (MoveStatus × Nat) :=
  stats.map (fun e => if e.1 = s then (e.1, e.2 + 1) else e)

/-- Python set `add`. -/
def set_add (l : List String) (x : String) : List String :=
  if l.contains x then l else l ++ [x]

/-- Read a per-CaseID quarantine claimed set (empty when absent). -/
def qget (q : List (String × List String)) (cid : String) : List String :=
  ((q.find? (fun e => e.1 == cid)).map (fun e => e.2)).getD []

/-- Write a per-CaseID quarantine claimed set, inserting the key at the end
when absent. -/
def qset (q : List (String × List String)) (cid : String) (v : List String) :
    List (String × List String) :=
  if q.any (fun e => e.1 == cid) then
    q.map (fun e => if e.1 == cid then (e.1, v) else e)
  else q ++ [(cid, v)]

/-- Embedding of the module-level `move_folder` primitive (mover.py
207-321): re-check the source, re-check the destination, honor dry-run, and
otherwise perform the move.  In the model every existing path is a
directory, directory creation cannot fail, and `safe_move` (modelled from
the spec's move primitive, the `utils` module being outside src/) always
succeeds, so the not-a-directory and I/O-error branches do not arise. -/
def move_folder_prim (fs : FS) (src_path dest_path : Path) (dry_run : Bool) :
    MoveResult × FS :=
  if !path_exists fs src_path then
    ({ case_id := "", source_path := src_path, dest_path := none,
       status := .skipped_missing,
       message := "Source folder no longer exists (may have been moved already)" }, fs)
  else if path_exists fs dest_path then
    ({ case_id := "", source_path := src_path, dest_path := some dest_path,
       status := .skipped_exists, message := "Destination already exists" }, fs)
  else if dry_run then
    ({ case_id := "", source_path := src_path, dest_path := some dest_path,
       status := .dry_run, message := "Would move to " ++ path_str dest_path }, fs)
  else
    ({ case_id := "", source_path := src_path, dest_path := some dest_path,
       status := .success, message := "Moved successfully" },
     do_move fs src_path dest_path)

namespace FolderMover

/-- Embedding of `FolderMover._resolve_quarantine_destination` (mover.py
389-420): resolve a unique name inside `dest_root/_DUPLICATES/<case_id>/`
against that CaseID's own claimed set, then claim the resolved basename. -/
def _resolve_quarantine_destination (cfg : MoverConfig) (st : MoverState)
    (case_id folder_name : String) : Except PyExc (Path × MoverState) :=
  let quarantine_root := cfg.dest_root ++ [DUPLICATES_FOLDER, case_id]
  let claimed := qget st.quarantine_claimed case_id
  match resolve_destination st.fs quarantine_root folder_name claimed with
  | .error e => .error e
  | .ok dest_path =>
    let dest_name := dest_path.getLastD ""
    .ok (dest_path,
      { st with
          quarantine_claimed := qset st.quarantine_claimed case_id (set_add claimed dest_name) })

/-- Embedding of `FolderMover._move_to_quarantine` (mover.py 564-618). -/
def _move_to_quarantine (cfg : MoverConfig) (st : MoverState) (m : FolderMatch) :
    Except PyExc (MoveResult × MoverState) :=
  match _resolve_quarantine_destination cfg st m.case_id m.folder_name with
  | .error e => .error e
  | .ok (dest_path, st1) =>
    let folder_name := m.folder_name
    let dest_name := dest_path.getLastD ""
    let prim := move_folder_prim st1.fs m.source_path dest_path cfg.dry_run
    let result := prim.1
    let was_renamed := !(dest_name == folder_name)
    let status_message : MoveStatus × String :=
      if result.status == .success then
        if was_renamed then
          (.quarantined_renamed,
           "Quarantined duplicate (renamed from " ++ folder_name ++ " to " ++ dest_name ++ ")")
        else (.quarantined, "Quarantined duplicate to " ++ path_str dest_path)
      else if result.status == .dry_run then
        if was_renamed then
          (.dry_run_quarantine_renamed,
           "Would quarantine to " ++ path_str dest_path ++ " (renamed from " ++
             folder_name ++ " to " ++ dest_name ++ ")")
        else (.dry_run_quarantine, "Would quarantine duplicate to " ++ path_str dest_path)
      else (result.status, result.message)
    let final_result : MoveResult :=
      { case_id := m.case_id, source_path := result.source_path,
        dest_path := result.dest_path, status := status_message.1,
        message := status_message.2 }
    .ok (final_result,
      { st1 with fs := prim.2, stats := bump_stats st1.stats final_result.status })

/-- Embedding of `FolderMover.move_folder` (mover.py 422-562): the per-Match
state machine.  Checks run in source order: exclusion, resume, missing
source, duplicate policy, then the main branch with its `on_dest_exists`
handling, destination resolution, name claiming and the move primitive. -/
def move_folder (cfg : MoverConfig) (st : MoverState) (m : FolderMatch) :
    Except PyExc (MoveResult × MoverState) :=
  let folder_name := m.folder_name
  let is_duplicate := cfg.duplicate_case_ids.contains m.case_id
  let excl : Option String :=
    if !cfg.exclude_patterns.isEmpty then
      matches_exclusion_pattern folder_name cfg.exclude_patterns
    else none
  match excl with
  | some pattern =>
    let result : MoveResult :=
      { case_id := m.case_id, source_path := m.source_path, dest_path := none,
        status := .skipped_excluded, message := "Excluded by pattern: " ++ pattern }
    .ok (result, { st with stats := bump_stats st.stats result.status })
  | none =>
  if cfg.already_moved_paths.contains m.source_path then
    let result : MoveResult :=
      { case_id := m.case_id, source_path := m.source_path, dest_path := none,
        status := .skipped_resume, message := "Already processed in previous run (resumed)" }
    .ok (result, { st with stats := bump_stats st.stats result.status })
  else if !path_exists st.fs m.source_path then
    let result : MoveResult :=
      { case_id := m.case_id, source_path := m.source_path, dest_path := none,
        status := .skipped_missing,
        message := "Source folder no longer exists (may have been moved already)" }
    .ok (result, { st with stats := bump_stats st.stats result.status })
  else if is_duplicate && (cfg.duplicates_action == .skip) then
    let result : MoveResult :=
      { case_id := m.case_id, source_path := m.source_path, dest_path := none,
        status := .skipped_duplicate,
        message := "Duplicate CaseID skipped (--duplicates-action=skip)" }
    .ok (result, { st with stats := bump_stats st.stats result.status })
  else if is_duplicate && (cfg.duplicates_action == .quarantine) then
    _move_to_quarantine cfg st m
  else
    let original_dest := cfg.dest_root ++ [folder_name]
    let dest_exists := path_exists st.fs original_dest ||
      st.claimed_names.contains folder_name
    if dest_exists && (cfg.on_dest_exists == .skip) then
      let result : MoveResult :=
        { case_id := m.case_id, source_path := m.source_path,
          dest_path := some original_dest, status := .skipped_exists,
          message := "Destination exists (skipped due to --on-dest-exists=skip)" }
      .ok (result, { st with stats := bump_stats st.stats result.status })
    else
      match resolve_destination st.fs cfg.dest_root folder_name st.claimed_names with
      | .error e => .error e
      | .ok dest_path =>
        let dest_name := dest_path.getLastD ""
        let claimed' := set_add st.claimed_names dest_name
        let prim := move_folder_prim st.fs m.source_path dest_path cfg.dry_run
        let result := prim.1
        let was_renamed := !(dest_name == folder_name)
        let status_message : MoveStatus × String :=
          if result.status == .success && was_renamed then
            (.success_renamed,
             "Moved successfully (renamed from " ++ folder_name ++ " to " ++ dest_name ++ ")")
          else if result.status == .dry_run && was_renamed then
            (.dry_run_renamed,
             "Would move to " ++ path_str dest_path ++ " (renamed from " ++
               folder_name ++ " to " ++ dest_name ++ ")")
          else (result.status, result.message)
        let final_result : MoveResult :=
          { case_id := m.case_id, source_path := result.source_path,
            dest_path := result.dest_path, status := status_message.1,
            message := status_message.2 }
        .ok (final_result,
          { fs := prim.2, claimed_names := claimed',
            quarantine_claimed := st.quarantine_claimed,
            stats := bump_stats st.stats final_result.status })

end FolderMover

/-- The statuses that consume the `--max-moves` operation budget
(mover.py 640-649). -/
def op_statuses : List MoveStatus :=
  [.success, .success_renamed, .quarantined, .quarantined_renamed,
   .dry_run, .dry_run_renamed, .dry_run_quarantine, .dry_run_quarantine_renamed]

/-- `self.max_moves is not None and ops_count >= self.max_moves`. -/
def budget_reached : Option Nat → Nat → Bool
  | none, _ => false
  | some k, c => decide (k ≤ c)

namespace FolderMover

/-- The loop of `FolderMover.move_all` (mover.py 659-683), carrying the
operation counter and the accumulated results. -/
def move_all_go (cfg : MoverConfig) :
    MoverState → List FolderMatch → Nat → List MoveResult →
      Except PyExc (List MoveResult × MoverState)
  | st, [], _, acc => .ok (acc, st)
  | st, m :: rest, ops_count, acc =>
    if budget_reached cfg.max_moves ops_count then .ok (acc, st)
    else
      match move_folder cfg st m with
      | .error e => .error e
      | .ok (r, st') =>
        let ops' := if op_statuses.contains r.status then ops_count + 1 else ops_count
        move_all_go cfg st' rest ops' (acc ++ [r])

/-- Embedding of `FolderMover.move_all` (mover.py 620-683). -/
def move_all (cfg : MoverConfig) (st : MoverState) (ms : List FolderMatch) :
    Except PyExc (List MoveResult × MoverState) :=
  move_all_go cfg st ms 0 []

end FolderMover

/-- Report status vocabulary (`types.py` `ReportStatus`). -/
inductive ReportStatus where
  | MOVED
  | MOVED_RENAMED
  | FOUND_DRYRUN
  | FOUND_DRYRUN_RENAMED
  | NOT_FOUND
  | MULTIPLE_MATCHES
  | SKIPPED_MISSING
  | SKIPPED_EXISTS
  | SKIPPED_EXCLUDED
  | SKIPPED_RESUME
  | SKIPPED_DUPLICATE
  | ERROR
  | QUARANTINED
  | QUARANTINED_RENAMED
  | FOUND_DRYRUN_QUARANTINE
  | FOUND_DRYRUN_QUARANTINE_RENAMED
deriving DecidableEq, Repr

/-- Embedding of `ReportStatus.from_move_status` (types.py 95-120). -/
def from_move_status (status : MoveStatus) (is_multiple : Bool) : ReportStatus :=
  if is_multiple && [MoveStatus.success, .success_renamed, .dry_run,
      .dry_run_renamed].contains status then
    .MULTIPLE_MATCHES
  else
    match status with
    | .success => .MOVED
    | .success_renamed => .MOVED_RENAMED
    | .skipped_missing => .SKIPPED_MISSING
    | .skipped_exists => .SKIPPED_EXISTS
    | .skipped_excluded => .SKIPPED_EXCLUDED
    | .skipped_resume => .SKIPPED_RESUME
    | .skipped_duplicate => .SKIPPED_DUPLICATE
    | .error => .ERROR
    | .dry_run => .FOUND_DRYRUN
    | .dry_run_renamed => .FOUND_DRYRUN_RENAMED
    | .quarantined => .QUARANTINED
    | .quarantined_renamed => .QUARANTINED_RENAMED
    | .dry_run_quarantine => .FOUND_DRYRUN_QUARANTINE
    | .dry_run_quarantine_renamed => .FOUND_DRYRUN_QUARANTINE_RENAMED

/-- The statuses `write_move_result` never overrides (report.py 193-198). -/
def quarantine_statuses : List MoveStatus :=
  [.quarantined, .quarantined_renamed, .dry_run_quarantine, .dry_run_quarantine_renamed]

/-- The status-label decision of `ReportWriter.write_move_result` (report.py
191-213): quarantine statuses keep their own label, any other status is
overridden to `MULTIPLE_MATCHES` when the CaseID had multiple matches, and
otherwise the plain `from_move_status` mapping applies. -/
def write_move_result_status (status : MoveStatus) (is_multiple_match : Bool) :
    ReportStatus :=
  if quarantine_statuses.contains status then from_move_status status false
  else if is_multiple_match then .MULTIPLE_MATCHES
  else from_move_status status false

/-- The dry-run counterpart of a live status: the pairing the spec requires
between a live run and a dry run (skip and error statuses pair with
themselves). -/
def to_dry_status : MoveStatus → MoveStatus
  | .success => .dry_run
  | .success_renamed => .dry_run_renamed
  | .quarantined => .dry_run_quarantine
  | .quarantined_renamed => .dry_run_quarantine_renamed
  | s => s

/-- Outcome pairing between a live-run result and a dry-run result: same
identifier, source, resolved destination decision, and the paired status. -/
def paired_outcome (live dry : MoveResult) : Bool :=
  (dry.case_id == live.case_id) && (dry.source_path == live.source_path) &&
    (dry.dest_path == live.dest_path) && (dry.status == to_dry_status live.status)

/-- Pairing of two whole runs started from the same filesystem: both fail
identically, or both succeed with pointwise-paired outcomes, the dry run
leaving the filesystem untouched and both runs claiming the same names. -/
def paired_runs (live dry : Except PyExc (List MoveResult × MoverState))
    (fs0 : FS) : Prop :=
  match live, dry with
  | .error e, .error e' => e = e'
  | .ok (rs, stL), .ok (rs', stD) =>
    List.Forall₂ (fun a b => paired_outcome a b = true) rs rs' ∧
      stD.fs = fs0 ∧ stD.claimed_names = stL.claimed_names ∧
      stD.quarantine_claimed = stL.quarantine_claimed
  | _, _ => False

/-- The status of a successful engine step (`none` when the step raised). -/
def status_of (r : Except PyExc (MoveResult × MoverState)) : Option MoveStatus :=
  match r with
  | .ok (res, _) => some res.status
  | .error _ => none

/-- The statuses of a whole run, for comparing runs. -/
def statuses_of (r : Except PyExc (List MoveResult × MoverState)) : List MoveStatus :=
  match r with
  | .ok (rs, _) => rs.map (fun res => res.status)
  | .error _ => []

/-- Concrete fixtures shared by the claim witnesses: an engine over an
empty filesystem, and one match whose source is therefore missing. -/
def w_cfg : MoverConfig :=
  { dest_root := ["d"], dry_run := false, max_moves := none, exclude_patterns := [],
    on_dest_exists := .rename, already_moved_paths := [], duplicates_action := .quarantine,
    duplicate_case_ids := [] }

/-- Witness fixture: a fresh engine state over the empty filesystem. -/
def w_st : MoverState := initial_state []

/-- Witness fixture: a single match. -/
def w_m : FolderMatch := { case_id := "id", source_path := ["s", "A"], folder_name := "A" }

/-- Witness fixture: the outcome the engine produces for `w_m` over the
empty filesystem. -/
def w_r : MoveResult :=
  { case_id := "id", source_path := ["s", "A"], dest_path := none,
    status := .skipped_missing,
    message := "Source folder no longer exists (may have been moved already)" }

/-- Witness fixture: the state after processing `w_m`. -/
def w_st2 : MoverState := { w_st with stats := bump_stats w_st.stats .skipped_missing }


/-- Two paths are unrelated when neither is a prefix of the other (so no
directory operation under one can affect the other). -/
def path_unrelated (p q : Path) : Bool := !(p.isPrefixOf q) && !(q.isPrefixOf p)

/-- A folder name whose resolved candidates can never collide with the
quarantine folder: the name is not `_DUPLICATES` and no suffixed variant
`name_k` can be either. -/
def avoids_quarantine_name (fn : String) : Bool :=
  (fn != DUPLICATES_FOLDER) && !((fn ++ "_").data.isPrefixOf DUPLICATES_FOLDER.data)

/-- The relation a live-run state and the starting filesystem keep in sync:
on every destination basename outside the quarantine folder, and on every
quarantine slot, existence-or-claimed is the same for the live filesystem as
for the starting one, since the live run claims every name it creates. -/
def sync_inv (dr : Path) (fs0 : FS) (cl : List String)
    (qc : List (String × List String)) (fsL : FS) : Prop :=
  (∀ x, x ≠ DUPLICATES_FOLDER →
    (path_exists fsL (dr ++ [x]) || cl.contains x) =
      (path_exists fs0 (dr ++ [x]) || cl.contains x)) ∧
  (∀ cid x,
    (path_exists fsL (dr ++ [DUPLICATES_FOLDER, cid, x]) || (qget qc cid).contains x) =
      (path_exists fs0 (dr ++ [DUPLICATES_FOLDER, cid, x]) || (qget qc cid).contains x))

/-- C8 fixture: a one-folder filesystem whose single folder is matched by
two different identifiers, so both matches share the same source path. -/
def c8fs0 : FS := [["s", "A"]]

/-- C8 fixture: a live-run engine configuration. -/
def c8cfgL : MoverConfig :=
  { dest_root := ["d"], dry_run := false, max_moves := none, exclude_patterns := [],
    on_dest_exists := .rename, already_moved_paths := [], duplicates_action := .move_all,
    duplicate_case_ids := [] }

/-- C8 fixture: the same configuration with dry-run enabled. -/
def c8cfgD : MoverConfig := { c8cfgL with dry_run := true }

/-- C8 fixture: two matches sharing one source path (the move-all duplicate
policy produces exactly this shape). -/
def c8ms : List FolderMatch :=
  [{ case_id := "id1", source_path := ["s", "A"], folder_name := "A" },
   { case_id := "id2", source_path := ["s", "A"], folder_name := "A" }]

/-- C8 fixture: a single match over the one-folder filesystem, satisfying
the amended hypotheses. -/
def c8wm : FolderMatch :=
  { case_id := "id1", source_path := ["s", "A"], folder_name := "A" }

/- ===== Theorems ===== -/

theorem cand_name_zero (n : String) : cand_name n 0 = n := rfl

theorem cand_name_succ (n : String) (k : Nat) :
    cand_name n (k + 1) = n ++ "_" ++ toString (k + 1) := rfl

theorem try_candidate_eq (fs : FS) (dr : Path) (fn : String) (ex : List String)
    (c : Nat) (hc : c ≠ 0) :
    try_candidate fs dr fn ex c =
      (if name_free fs dr ex (cand_name fn c) then some (dr ++ [cand_name fn c]) else none) := by
  simp [try_candidate, name_free, cand_name, hc]

theorem name_free_mono {fs : FS} {dr : Path} {ex ex' : List String} {n : String}
    (hsub : ex ⊆ ex') (h : name_free fs dr ex' n = true) : name_free fs dr ex n = true := by
  simp only [name_free, Bool.and_eq_true, Bool.not_eq_true'] at h ⊢
  refine ⟨h.1, ?_⟩
  cases hc : ex.contains n
  · rfl
  · have hmem : n ∈ ex' := hsub (List.mem_of_elem_eq_true hc)
    have := List.elem_eq_true_of_mem hmem
    rw [List.contains] at h
    rw [h.2] at this
    exact this.symm

theorem not_name_free_of_mem {fs : FS} {dr : Path} {ex : List String} {n : String}
    (h : n ∈ ex) : name_free fs dr ex n = false := by
  simp only [name_free, Bool.and_eq_false_iff, Bool.not_eq_false]
  right
  simpa using List.elem_eq_true_of_mem h

theorem find_suffix_ok_iff (fs : FS) (dr : Path) (fn : String) (ex : List String) :
    ∀ (fuel c : Nat) (p : Path), c ≠ 0 →
      (find_suffix fs dr fn ex c fuel = .ok p ↔
        ∃ i, i ≤ fuel ∧ name_free fs dr ex (cand_name fn (c + i)) = true ∧
          (∀ j, j < i → name_free fs dr ex (cand_name fn (c + j)) = false) ∧
          p = dr ++ [cand_name fn (c + i)]) := by
  intro fuel
  induction fuel with
  | zero =>
    intro c p hc
    rw [find_suffix, try_candidate_eq fs dr fn ex c hc]
    cases hfree : name_free fs dr ex (cand_name fn c)
    · simp only [hfree, Bool.false_eq_true, if_false]
      constructor
      · intro h; simp at h
      · rintro ⟨i, hi, hfr, -, -⟩
        interval_cases i
        simp only [Nat.add_zero] at hfr
        rw [hfree] at hfr
        exact absurd hfr (by simp)
    · simp only [hfree, if_true]
      constructor
      · intro h
        simp only [Except.ok.injEq] at h
        exact ⟨0, Nat.le_refl 0, by simpa using hfree, fun j hj => absurd hj (Nat.not_lt_zero j),
          h.symm⟩
      · rintro ⟨i, hi, -, -, hp⟩
        interval_cases i
        simp [hp]
  | succ fuel ih =>
    intro c p hc
    rw [find_suffix, try_candidate_eq fs dr fn ex c hc]
    cases hfree : name_free fs dr ex (cand_name fn c)
    · simp only [hfree, Bool.false_eq_true, if_false]
      rw [ih (c + 1) p (Nat.succ_ne_zero c)]
      constructor
      · rintro ⟨i, hi, hfr, hmin, hp⟩
        refine ⟨i + 1, Nat.succ_le_succ hi, by rw [show c + (i + 1) = c + 1 + i by omega]; exact hfr,
          ?_, by rw [show c + (i + 1) = c + 1 + i by omega]; exact hp⟩
        intro j hj
        match j with
        | 0 => simpa using hfree
        | j' + 1 =>
          rw [show c + (j' + 1) = c + 1 + j' by omega]
          exact hmin j' (by omega)
      · rintro ⟨i, hi, hfr, hmin, hp⟩
        match i with
        | 0 =>
          simp only [Nat.add_zero] at hfr
          rw [hfree] at hfr
          exact absurd hfr (by simp)
        | i' + 1 =>
          refine ⟨i', by omega, by rw [show c + 1 + i' = c + (i' + 1) by omega]; exact hfr, ?_,
            by rw [show c + 1 + i' = c + (i' + 1) by omega]; exact hp⟩
          intro j hj
          rw [show c + 1 + j = c + (j + 1) by omega]
          exact hmin (j + 1) (by omega)
    · simp only [hfree, if_true]
      constructor
      · intro h
        simp only [Except.ok.injEq] at h
        exact ⟨0, Nat.zero_le _, by simpa using hfree, fun j hj => absurd hj (Nat.not_lt_zero j),
          h.symm⟩
      · rintro ⟨i, hi, hfr, hmin, hp⟩
        match i with
        | 0 => simp [hp]
        | i' + 1 =>
          have := hmin 0 (by omega)
          simp only [Nat.add_zero] at this
          rw [hfree] at this
          exact absurd this (by simp)

theorem find_suffix_err (fs : FS) (dr : Path) (fn : String) (ex : List String) :
    ∀ (fuel c : Nat) (e : PyExc),
      find_suffix fs dr fn ex c fuel = .error e →
        e = .runtimeError (exhausted_msg fn) := by
  intro fuel
  induction fuel with
  | zero =>
    intro c e h
    rw [find_suffix] at h
    rcases hcand : try_candidate fs dr fn ex c with _ | p
    · rw [hcand] at h
      simp only [Except.error.injEq] at h
      exact h.symm
    · rw [hcand] at h
      simp at h
  | succ fuel ih =>
    intro c e h
    rw [find_suffix] at h
    rcases hcand : try_candidate fs dr fn ex c with _ | p
    · rw [hcand] at h
      exact ih (c + 1) e h
    · rw [hcand] at h
      simp at h

theorem find_suffix_exhausted (fs : FS) (dr : Path) (fn : String) (ex : List String) :
    ∀ (fuel c : Nat), c ≠ 0 →
      (∀ i, i ≤ fuel → name_free fs dr ex (cand_name fn (c + i)) = false) →
      find_suffix fs dr fn ex c fuel = .error (.runtimeError (exhausted_msg fn)) := by
  intro fuel
  induction fuel with
  | zero =>
    intro c hc hall
    rw [find_suffix, try_candidate_eq fs dr fn ex c hc]
    have := hall 0 (Nat.le_refl 0)
    simp only [Nat.add_zero] at this
    rw [this]
    simp
  | succ fuel ih =>
    intro c hc hall
    rw [find_suffix, try_candidate_eq fs dr fn ex c hc]
    have h0 := hall 0 (Nat.zero_le _)
    simp only [Nat.add_zero] at h0
    rw [h0]
    simp only [Bool.false_eq_true, if_false]
    exact ih (c + 1) (Nat.succ_ne_zero c) (fun i hi => by
      have : c + 1 + i = c + (i + 1) := by omega
      rw [this]
      exact hall (i + 1) (by omega))

theorem resolve_destination_ok_iff (fs : FS) (dr : Path) (fn : String)
    (ex : List String) (p : Path) :
    resolve_destination fs dr fn ex = .ok p ↔
      ∃ k, k ≤ 10000 ∧ name_free fs dr ex (cand_name fn k) = true ∧
        (∀ j, j < k → name_free fs dr ex (cand_name fn j) = false) ∧
        p = dr ++ [cand_name fn k] := by
  have hhead : (!path_exists fs (dr ++ [fn]) && !ex.contains fn) = name_free fs dr ex fn := rfl
  rw [resolve_destination]
  simp only [hhead]
  by_cases hfree : name_free fs dr ex fn = true
  · rw [if_pos hfree]
    constructor
    · intro h
      cases h
      exact ⟨0, by omega, hfree, fun j hj => absurd hj (Nat.not_lt_zero j), by simp [cand_name]⟩
    · rintro ⟨k, hk, hfr, hmin, hp⟩
      rcases Nat.eq_zero_or_pos k with hk0 | hkpos
      · subst hk0; simp [hp, cand_name]
      · have := hmin 0 hkpos
        rw [cand_name_zero] at this
        rw [this] at hfree
        exact absurd hfree (by simp)
  · rw [if_neg hfree]
    rw [Bool.not_eq_true] at hfree
    rw [find_suffix_ok_iff fs dr fn ex 9999 1 p (by omega)]
    constructor
    · rintro ⟨i, hi, hfr, hmin, hp⟩
      refine ⟨1 + i, by omega, hfr, ?_, hp⟩
      intro j hj
      match j with
      | 0 => rw [cand_name_zero]; exact hfree
      | j' + 1 =>
        rw [show j' + 1 = 1 + j' by omega]
        exact hmin j' (by omega)
    · rintro ⟨k, hk, hfr, hmin, hp⟩
      match k with
      | 0 =>
        rw [cand_name_zero] at hfr
        rw [hfree] at hfr
        exact absurd hfr (by simp)
      | k' + 1 =>
        refine ⟨k', by omega, by rw [show 1 + k' = k' + 1 by omega]; exact hfr, ?_,
          by rw [show 1 + k' = k' + 1 by omega]; exact hp⟩
        intro j hj
        rw [show 1 + j = j + 1 by omega]
        exact hmin (j + 1) (by omega)

theorem resolve_destination_err (fs : FS) (dr : Path) (fn : String)
    (ex : List String) (e : PyExc)
    (h : resolve_destination fs dr fn ex = .error e) :
    e = .runtimeError (exhausted_msg fn) := by
  rw [resolve_destination] at h
  split at h
  · simp at h
  · exact find_suffix_err fs dr fn ex 9999 1 e h

theorem resolve_destination_exhausted (fs : FS) (dr : Path) (fn : String)
    (ex : List String)
    (hall : ∀ k, k ≤ 10000 → name_free fs dr ex (cand_name fn k) = false) :
    resolve_destination fs dr fn ex = .error (.runtimeError (exhausted_msg fn)) := by
  rw [resolve_destination]
  have h0 := hall 0 (by omega)
  rw [cand_name_zero] at h0
  have hhead : (!path_exists fs (dr ++ [fn]) && !ex.contains fn) = name_free fs dr ex fn := rfl
  rw [hhead, h0]
  simp only [Bool.false_eq_true, if_false]
  exact find_suffix_exhausted fs dr fn ex 9999 1 (by omega) (fun i hi => by
    have : 1 + i = i + 1 := by omega
    rw [this]
    exact hall (i + 1) (by omega))

theorem foldl_ite_filter {α β : Type} (g : β → α → β) (c : α → Bool) (l : List α) (d : β) :
    l.foldl (fun d a => if c a then g d a else d) d = (l.filter c).foldl g d := by
  induction l generalizing d with
  | nil => rfl
  | cons a l ih =>
    by_cases h : c a = true
    · simp [h, ih]
    · simp only [Bool.not_eq_true] at h
      simp [h, ih]

theorem foldl_nested_flatMap {α γ β : Type} (g : α → List γ) (h : β → γ → β)
    (l : List α) (d : β) :
    l.foldl (fun d a => (g a).foldl h d) d = (l.flatMap g).foldl h d := by
  induction l generalizing d with
  | nil => rfl
  | cons a l ih => simp [ih, List.foldl_append]

theorem dict_get_cons_beq_false {β : Type} {e : String × List β} {d : PyDict β}
    {k : String} (h : (e.1 == k) = false) : dict_get (e :: d) k = dict_get d k := by
  simp [dict_get, List.find?_cons, h]

theorem dict_get_cons_beq_true {β : Type} {e : String × List β} {d : PyDict β}
    {k : String} (h : (e.1 == k) = true) : dict_get (e :: d) k = e.2 := by
  simp [dict_get, List.find?_cons, h]

theorem dict_push_cons {β : Type} (e : String × List β) (d : PyDict β)
    (k : String) (v : β) :
    dict_push (e :: d) k v =
      (if e.1 == k then (e.1, e.2 ++ [v]) else e) :: dict_push d k v := rfl

theorem dict_keys_push {β : Type} (d : PyDict β) (k : String) (v : β) :
    dict_keys (dict_push d k v) = dict_keys d := by
  induction d with
  | nil => rfl
  | cons e d ih =>
    rw [dict_push_cons]
    cases he : e.1 == k <;>
      · simp only [dict_keys, List.map_cons] at ih ⊢
        rw [ih]
        simp [he]

theorem dict_has_key_push {β : Type} (d : PyDict β) (k k' : String) (v : β) :
    dict_has_key (dict_push d k v) k' = dict_has_key d k' := by
  induction d with
  | nil => rfl
  | cons e d ih =>
    rw [dict_push_cons]
    simp only [dict_has_key, List.any_cons] at ih ⊢
    rw [ih]
    cases he : e.1 == k <;> simp [he]

theorem dict_get_push_self {β : Type} (d : PyDict β) (k : String) (v : β) :
    dict_get (dict_push d k v) k =
      dict_get d k ++ (if dict_has_key d k then [v] else []) := by
  induction d with
  | nil => rfl
  | cons e d ih =>
    rw [dict_push_cons]
    cases he : e.1 == k
    · rw [show (if false = true then (e.1, e.2 ++ [v]) else e) = e from rfl]
      rw [dict_get_cons_beq_false he, dict_get_cons_beq_false he, ih]
      simp only [dict_has_key, List.any_cons, he, Bool.false_or]
    · rw [show (if true = true then (e.1, e.2 ++ [v]) else e) = (e.1, e.2 ++ [v]) from rfl]
      rw [dict_get_cons_beq_true (k := k) (by simpa using he), dict_get_cons_beq_true he]
      simp [dict_has_key, List.any_cons, he]

theorem dict_get_push_ne {β : Type} (d : PyDict β) (k k' : String) (v : β)
    (h : k' ≠ k) : dict_get (dict_push d k v) k' = dict_get d k' := by
  induction d with
  | nil => rfl
  | cons e d ih =>
    rw [dict_push_cons]
    cases he : e.1 == k
    · rw [show (if false = true then (e.1, e.2 ++ [v]) else e) = e from rfl]
      cases he' : e.1 == k'
      · rw [dict_get_cons_beq_false he', dict_get_cons_beq_false he', ih]
      · rw [dict_get_cons_beq_true he', dict_get_cons_beq_true he']
    · rw [show (if true = true then (e.1, e.2 ++ [v]) else e) = (e.1, e.2 ++ [v]) from rfl]
      have hek : e.1 = k := by simpa using he
      have he' : (e.1 == k') = false := by
        simp only [beq_eq_false_iff_ne, ne_eq, hek]
        exact fun hc => h hc.symm
      rw [dict_get_cons_beq_false (k := k') (by simpa using he'), dict_get_cons_beq_false he', ih]

theorem dict_push_fold_has_key {β : Type} (ks : List String) (d : PyDict β)
    (v : β) (k : String) :
    dict_has_key (ks.foldl (fun d k' => dict_push d k' v) d) k = dict_has_key d k := by
  induction ks generalizing d with
  | nil => rfl
  | cons a ks ih => simp [ih, dict_has_key_push]

theorem dict_push_fold_get {β : Type} (ks : List String) (d : PyDict β) (v : β)
    (k : String) :
    dict_get (ks.foldl (fun d k' => dict_push d k' v) d) k =
      dict_get d k ++ (if dict_has_key d k then List.replicate (ks.count k) v else []) := by
  induction ks generalizing d with
  | nil => simp
  | cons a ks ih =>
    simp only [List.foldl_cons]
    rw [ih]
    by_cases ha : a = k
    · subst ha
      rw [dict_get_push_self, dict_has_key_push]
      by_cases hk : dict_has_key d a = true
      · have hcnt : ks.count a + 1 = 1 + ks.count a := by omega
        simp [hk, List.count_cons, hcnt, List.replicate_add]
      · simp only [Bool.not_eq_true] at hk
        simp [hk]
    · rw [dict_get_push_ne d a k v (fun hc => ha hc.symm), dict_has_key_push]
      have : (a == k) = false := by simpa using ha
      simp [List.count_cons, this]

theorem dict_get_init {β : Type} (ks : List String) (k : String) :
    dict_get (dict_init ks : PyDict β) k = [] := by
  have hmem : ∀ (acc : PyDict β), (∀ e ∈ acc, e.2 = []) →
      ∀ e ∈ ks.foldl (fun d k' =>
        if d.any (fun e => e.1 == k') then d else d ++ [(k', [])]) acc, e.2 = [] := by
    induction ks with
    | nil => intro acc hacc e he; exact hacc e he
    | cons a ks ih =>
      intro acc hacc e he
      simp only [List.foldl_cons] at he
      by_cases h : acc.any (fun e => e.1 == a) = true
      · rw [if_pos h] at he
        exact ih acc hacc e he
      · rw [if_neg h] at he
        refine ih _ ?_ e he
        intro e' he'
        rcases List.mem_append.mp he' with h1 | h2
        · exact hacc e' h1
        · simp only [List.mem_singleton] at h2
          simp [h2]
  have hall := hmem [] (by simp)
  rw [dict_get]
  cases hf : (dict_init ks : PyDict β).find? (fun e => e.1 == k) with
  | none => rfl
  | some e =>
    have he := List.mem_of_find?_eq_some hf
    rw [dict_init] at he
    have h2 : e.2 = [] := hall e he
    simp [h2]

theorem dict_has_key_init {β : Type} (ks : List String) (k : String) :
    dict_has_key (dict_init ks : PyDict β) k = ks.contains k := by
  have haux : ∀ (acc : PyDict β), dict_has_key (ks.foldl (fun d k' =>
      if d.any (fun e => e.1 == k') then d else d ++ [(k', [])]) acc) k =
        (dict_has_key acc k || ks.contains k) := by
    induction ks with
    | nil => intro acc; simp
    | cons a ks ih =>
      intro acc
      simp only [List.foldl_cons, List.contains_cons]
      by_cases hak : a = k
      · subst hak
        by_cases h : acc.any (fun e => e.1 == a) = true
        · rw [if_pos h, ih]
          have hk : dict_has_key acc a = true := h
          simp [hk]
        · rw [if_neg h, ih]
          have hstep : dict_has_key (acc ++ [(a, [])]) a = true := by
            simp [dict_has_key, List.any_append]
          rw [hstep]
          simp
      · have hka : (k == a) = false := beq_eq_false_iff_ne.mpr (fun hc => hak hc.symm)
        have hak' : (a == k) = false := beq_eq_false_iff_ne.mpr hak
        by_cases h : acc.any (fun e => e.1 == a) = true
        · rw [if_pos h, ih]
          simp [hka]
        · rw [if_neg h, ih]
          have hstep : dict_has_key (acc ++ [(a, [])]) k = dict_has_key acc k := by
            simp [dict_has_key, List.any_append, hak']
          rw [hstep]
          simp [hka]
  rw [dict_init, haux []]
  rfl

theorem dict_keys_push_fold {β : Type} (ks : List String) (d : PyDict β) (v : β) :
    dict_keys (ks.foldl (fun d k' => dict_push d k' v) d) = dict_keys d := by
  induction ks generalizing d with
  | nil => rfl
  | cons a ks ih => simp [ih, dict_keys_push]

theorem dict_get_push_default_self {β : Type} (d : PyDict β) (k : String) (v : β) :
    dict_get (dict_push_default d k v) k = dict_get d k ++ [v] := by
  rw [dict_push_default]
  by_cases h : d.any (fun e => e.1 == k) = true
  · rw [if_pos h, dict_get_push_self]
    have : dict_has_key d k = true := h
    simp [this]
  · rw [if_neg h]
    have hfind : d.find? (fun e => e.1 == k) = none := by
      rw [List.find?_eq_none]
      intro x hx hc
      exact h (List.any_of_mem hx hc)
    have hget : dict_get d k = [] := by simp [dict_get, hfind]
    rw [hget]
    simp [dict_get, List.find?_append, hfind, List.find?_cons]

theorem dict_get_push_default_ne {β : Type} (d : PyDict β) (k k' : String) (v : β)
    (h : k' ≠ k) : dict_get (dict_push_default d k v) k' = dict_get d k' := by
  rw [dict_push_default]
  by_cases hk : d.any (fun e => e.1 == k) = true
  · rw [if_pos hk, dict_get_push_ne d k k' v h]
  · rw [if_neg hk]
    have hbeq : (k == k') = false := beq_eq_false_iff_ne.mpr (fun hc => h hc.symm)
    simp [dict_get, List.find?_append, List.find?_cons, hbeq]

theorem p2c_get_generic (f : String → String) (cids : List String) (p : String) :
    dict_get (cids.foldl (fun d cid => dict_push_default d (f cid) cid) []) p =
      cids.filter (fun c => f c == p) := by
  suffices haux : ∀ (acc : PyDict String),
      dict_get (cids.foldl (fun d cid => dict_push_default d (f cid) cid) acc) p =
        dict_get acc p ++ cids.filter (fun c => f c == p) by
    simpa using haux []
  induction cids with
  | nil => intro acc; simp
  | cons c cids ih =>
    intro acc
    simp only [List.foldl_cons, List.filter_cons]
    by_cases hc : (f c == p) = true
    · have hfc : f c = p := by simpa using hc
      rw [ih]
      rw [← hfc, dict_get_push_default_self]
      simp [hc, List.append_assoc]
    · have : (f c == p) = false := by simpa using hc
      rw [ih, dict_get_push_default_ne acc (f c) p c
        (fun hcc => hc (by simp [hcc]))]
      simp [this]

/-- C3: `resolve_destination` returns `dest_root/desired_name` when that path
does not exist on disk and the name is unclaimed; otherwise it probes
`name_1`, `name_2`, ... in increasing order and returns the first candidate
free on both axes, never returning a path that exists on disk or whose
basename is claimed; and repeated calls with an ever-growing claimed set
produce strictly increasing suffix numbers for the same desired name. -/
theorem c3_resolve_destination_spec (fs : FS) (dest_root : Path) (folder_name : String)
    (existing : List String) :
    (∀ p, resolve_destination fs dest_root folder_name existing = .ok p →
      ∃ k, k ≤ 10000 ∧ p = dest_root ++ [cand_name folder_name k] ∧
        path_exists fs p = false ∧ existing.contains (cand_name folder_name k) = false ∧
        (∀ j, j < k → name_free fs dest_root existing (cand_name folder_name j) = false)) ∧
    (name_free fs dest_root existing folder_name = true →
      resolve_destination fs dest_root folder_name existing = .ok (dest_root ++ [folder_name])) ∧
    (∀ existing' p p', existing ⊆ existing' →
      resolve_destination fs dest_root folder_name existing = .ok p →
      (∀ b, p = dest_root ++ [b] → b ∈ existing') →
      resolve_destination fs dest_root folder_name existing' = .ok p' →
      ∃ k k', k < k' ∧ p = dest_root ++ [cand_name folder_name k] ∧
        p' = dest_root ++ [cand_name folder_name k']) := by
  refine ⟨?_, ?_, ?_⟩
  · intro p hok
    obtain ⟨k, hk, hfr, hmin, hp⟩ := (resolve_destination_ok_iff fs dest_root folder_name
      existing p).mp hok
    have hfr' := hfr
    simp only [name_free, Bool.and_eq_true, Bool.not_eq_true'] at hfr'
    exact ⟨k, hk, hp, by rw [hp]; exact hfr'.1, hfr'.2, hmin⟩
  · intro hfree
    rw [resolve_destination]
    have hhead : (!path_exists fs (dest_root ++ [folder_name]) &&
        !existing.contains folder_name) = name_free fs dest_root existing folder_name := rfl
    rw [hhead, hfree]
    simp
  · intro existing' p p' hsub hok hb hok'
    obtain ⟨k, hk, hfr, hmin, hp⟩ := (resolve_destination_ok_iff fs dest_root folder_name
      existing p).mp hok
    obtain ⟨k', hk', hfr', hmin', hp'⟩ := (resolve_destination_ok_iff fs dest_root folder_name
      existing' p').mp hok'
    refine ⟨k, k', ?_, hp, hp'⟩
    by_contra hle
    rcases Nat.lt_or_ge k' k with hlt | hge
    · have h1 := hmin k' hlt
      have h2 := name_free_mono hsub hfr'
      rw [h1] at h2
      exact absurd h2 (by simp)
    · have hkk : k' = k := by omega
      subst hkk
      have hmem : cand_name folder_name k' ∈ existing' := hb _ hp
      have : name_free fs dest_root existing' (cand_name folder_name k') = false :=
        not_name_free_of_mem hmem
      rw [this] at hfr'
      exact absurd hfr' (by simp)

theorem c3_resolve_destination_spec_witness :
    ∃ k k', k < k' ∧ (["d", "A_1"] : Path) = ["d"] ++ [cand_name "A" k] ∧
      (["d", "A_2"] : Path) = ["d"] ++ [cand_name "A" k'] :=
  (c3_resolve_destination_spec [["d", "A"]] ["d"] "A" []).2.2 ["A_1"] ["d", "A_1"] ["d", "A_2"]
    (by simp) (by rfl)
    (fun b hb => by
      simp only [List.cons_append, List.nil_append, List.cons.injEq, and_true, true_and] at hb
      simp [hb])
    (by rfl)

/-- C4 counterexample: with the desired name and all 10000 suffix candidates
claimed, `resolve_destination` fails with the generic `RuntimeError`, not
with a distinct resolution-exhausted error type as the claim states. -/
theorem c4_counterexample :
    resolve_destination [] [] "x" big_claimed = .error (.runtimeError (exhausted_msg "x")) ∧
    raised_resolution_exhausted (resolve_destination [] [] "x" big_claimed) = false := by
  have hall : ∀ k, k ≤ 10000 → name_free [] [] big_claimed (cand_name "x" k) = false := by
    intro k hk
    exact not_name_free_of_mem (List.mem_map_of_mem _ (List.mem_range.mpr (by omega)))
  have h := resolve_destination_exhausted [] [] "x" big_claimed hall
  exact ⟨h, by rw [h]; rfl⟩

/-- C4 (amended): when no free destination name is found within the fixed
ceiling of 10000 suffix attempts, `resolve_destination` raises the generic
`RuntimeError` (there is no distinct `ResolutionExhaustedError` type in the
code); the loop is bounded and every error it raises is that
`RuntimeError`. -/
theorem c4_bounded_generic_error (fs : FS) (dr : Path) (fn : String) (ex : List String) :
    ((∀ k, k ≤ 10000 → name_free fs dr ex (cand_name fn k) = false) →
      resolve_destination fs dr fn ex = .error (.runtimeError (exhausted_msg fn))) ∧
    (∀ e, resolve_destination fs dr fn ex = .error e →
      e = .runtimeError (exhausted_msg fn)) :=
  ⟨resolve_destination_exhausted fs dr fn ex, resolve_destination_err fs dr fn ex⟩

theorem c4_bounded_generic_error_witness :
    resolve_destination [] [] "x" big_claimed = .error (.runtimeError (exhausted_msg "x")) :=
  (c4_bounded_generic_error [] [] "x" big_claimed).1 (fun k hk =>
    not_name_free_of_mem (List.mem_map_of_mem _ (List.mem_range.mpr (by omega))))


theorem py_lower_length (s : String) : (py_lower s).length = s.length := by
  rw [py_lower, String.length, String.length]
  exact List.length_map s.data Char.toLower

theorem norm_id_length (cs : Bool) (s : String) : (norm_id cs s).length = s.length := by
  cases cs <;> simp [norm_id, py_lower_length]

theorem string_eq_empty_iff_length (s : String) : (s = "") ↔ s.length = 0 := by
  constructor
  · intro h; subst h; rfl
  · intro h
    have hd : s.data = [] := List.length_eq_zero.mp h
    cases s
    simp_all

theorem norm_id_eq_empty_iff (cs : Bool) (s : String) : (norm_id cs s = "") ↔ s = "" := by
  rw [string_eq_empty_iff_length, string_eq_empty_iff_length, norm_id_length]

theorem str_in_length_le {a b : String} (h : str_in a b = true) : a.length ≤ b.length := by
  simp only [str_in, decide_eq_true_eq] at h
  exact h.length_le

theorem str_in_empty_hay {a : String} (ha : a ≠ "") : str_in a "" = false := by
  cases h : str_in a ""
  · rfl
  · have := str_in_length_le h
    rw [show ("" : String).length = 0 from rfl] at this
    have hz : a.length = 0 := by omega
    rw [← string_eq_empty_iff_length] at hz
    exact absurd hz ha

theorem countP_beq_and (l : List String) (cid : String) (Q : String → Bool) :
    l.countP (fun c => (c == cid) && Q c) = if Q cid then l.count cid else 0 := by
  induction l with
  | nil => simp [List.count_nil]
  | cons a l ih =>
    rw [List.countP_cons, List.count_cons, ih]
    by_cases ha : a = cid
    · subst ha
      by_cases hq : Q a = true <;> simp [hq]
    · have : (a == cid) = false := beq_eq_false_iff_ne.mpr ha
      simp [this]

theorem build_buckets_append (prepared : List (String × String)) (p : String × String)
    (maxLen : Nat) :
    build_buckets (prepared ++ [p]) maxLen =
      (build_buckets prepared maxLen).set p.2.length
        ((build_buckets prepared maxLen).getD p.2.length [] ++ [p]) := by
  simp [build_buckets, List.foldl_append]

theorem build_buckets_length (prepared : List (String × String)) (maxLen : Nat) :
    (build_buckets prepared maxLen).length = maxLen + 1 := by
  rw [build_buckets]
  have haux : ∀ (bs : List (List (String × String))),
      (prepared.foldl (fun bs p => bs.set p.2.length (bs.getD p.2.length [] ++ [p])) bs).length
        = bs.length := by
    induction prepared with
    | nil => intro bs; rfl
    | cons q prepared ih =>
      intro bs
      simp only [List.foldl_cons]
      rw [ih, List.length_set]
  rw [haux, List.length_replicate]

theorem getD_set_nil {α : Type} (bs : List (List α)) (i j : Nat) (v : List α) :
    (bs.set i v).getD j [] =
      if i = j ∧ i < bs.length then v else bs.getD j [] := by
  rw [List.getD_eq_getElem?_getD, List.getD_eq_getElem?_getD, List.getElem?_set]
  by_cases hij : i = j
  · subst hij
    by_cases hlt : i < bs.length
    · simp [hlt]
    · rw [if_pos rfl, if_neg hlt, if_neg (fun hc => hlt hc.2),
        List.getElem?_eq_none (Nat.le_of_not_lt hlt)]
  · simp [hij]

theorem getD_replicate_nil {α : Type} (n i : Nat) :
    ((List.replicate n ([] : List α)).getD i []) = [] := by
  rw [List.getD_eq_getElem?_getD]
  cases h : (List.replicate n ([] : List α))[i]? with
  | none => rfl
  | some v =>
    have := List.getElem?_mem h
    rw [List.eq_of_mem_replicate this]
    rfl

theorem build_buckets_getD (prepared : List (String × String)) (maxLen : Nat)
    (hlen : ∀ p ∈ prepared, p.2.length ≤ maxLen) (l : Nat) :
    (build_buckets prepared maxLen).getD l [] =
      prepared.filter (fun p => p.2.length == l) := by
  induction prepared using List.reverseRecOn with
  | nil =>
    rw [build_buckets]
    simp only [List.foldl_nil, List.filter_nil]
    exact getD_replicate_nil (maxLen + 1) l
  | append_singleton ps p ih =>
    have hlen' : ∀ q ∈ ps, q.2.length ≤ maxLen := fun q hq => hlen q (by simp [hq])
    rw [build_buckets_append, getD_set_nil, List.filter_append]
    by_cases hl : p.2.length = l
    · have hlt : p.2.length < (build_buckets ps maxLen).length := by
        rw [build_buckets_length]
        have := hlen p (by simp)
        omega
      rw [if_pos ⟨hl, hlt⟩, hl, ih hlen']
      simp [hl]
    · have : ¬(p.2.length = l ∧ p.2.length < (build_buckets ps maxLen).length) :=
        fun hc => hl hc.1
      rw [if_neg this, ih hlen']
      have : (p.2.length == l) = false := by simpa using hl
      simp [this]

theorem build_cumulative_snd (bs : List (List (String × String)))
    (c : List (List (String × String))) (r : List (String × String)) :
    (bs.foldl (fun acc bucket => (acc.1 ++ [acc.2 ++ bucket], acc.2 ++ bucket)) (c, r)).2 =
      r ++ bs.flatten := by
  induction bs generalizing c r with
  | nil => simp
  | cons b bs ih => simp [ih, List.append_assoc]

theorem build_cumulative_spec (bs : List (List (String × String))) :
    build_cumulative bs = (List.range bs.length).map (fun k => (bs.take (k + 1)).flatten) := by
  induction bs using List.reverseRecOn with
  | nil => rfl
  | append_singleton bs b ih =>
    have hc : bs.foldl (fun acc bucket => (acc.1 ++ [acc.2 ++ bucket], acc.2 ++ bucket))
        (([], []) : List (List (String × String)) × List (String × String)) =
        (build_cumulative bs, bs.flatten) := by
      have h2 := build_cumulative_snd bs [] []
      rw [build_cumulative]
      exact Prod.ext rfl (by simpa using h2)
    rw [build_cumulative, List.foldl_append, hc]
    simp only [List.foldl_cons, List.foldl_nil]
    rw [ih]
    rw [List.length_append, List.length_singleton, List.range_succ, List.map_append]
    congr 1
    · apply List.map_congr_left
      intro k hk
      rw [List.mem_range] at hk
      rw [List.take_append_of_le_length (by omega)]
    · simp only [List.map_cons, List.map_nil]
      congr 2
      rw [List.take_of_length_le (by simp), List.flatten_append]
      simp


theorem countP_and_le_succ (l : List (String × String)) (P : String × String → Bool)
    (k : Nat) :
    l.countP (fun p => P p && decide (p.2.length ≤ k + 1)) =
      l.countP (fun p => P p && decide (p.2.length ≤ k)) +
        l.countP (fun p => P p && (p.2.length == k + 1)) := by
  induction l with
  | nil => simp
  | cons a l ih =>
    simp only [List.countP_cons, ih]
    by_cases hp : P a = true
    · by_cases h1 : a.2.length ≤ k
      · have h2 : decide (a.2.length ≤ k + 1) = true := by simp; omega
        have h3 : (a.2.length == k + 1) = false := by simp; omega
        simp [hp, h1, h2, h3]
        omega
      · by_cases h4 : a.2.length = k + 1
        · have h2 : decide (a.2.length ≤ k + 1) = true := by simp; omega
          have h3 : decide (a.2.length ≤ k) = false := by simp; omega
          simp [hp, h2, h3, h4]
          omega
        · have h2 : decide (a.2.length ≤ k + 1) = false := by simp; omega
          have h3 : decide (a.2.length ≤ k) = false := by simp; omega
          have h5 : (a.2.length == k + 1) = false := by simp; omega
          simp [hp, h2, h3, h5]
    · have : P a = false := by simpa using hp
      simp [this]

theorem take_succ_getD {α : Type} (l : List (List α)) (k : Nat) (h : k < l.length) :
    l.take (k + 1) = l.take k ++ [l.getD k []] := by
  rw [List.take_succ]
  congr 1
  rw [List.getElem?_eq_getElem h]
  rw [List.getD_eq_getElem?_getD, List.getElem?_eq_getElem h]
  rfl

theorem countP_flatten_take (prepared : List (String × String)) (maxLen : Nat)
    (hlen : ∀ p ∈ prepared, p.2.length ≤ maxLen) (P : String × String → Bool) :
    ∀ k, k ≤ maxLen →
      (((build_buckets prepared maxLen).take (k + 1)).flatten).countP P =
        prepared.countP (fun p => P p && decide (p.2.length ≤ k)) := by
  intro k
  induction k with
  | zero =>
    intro _
    rw [take_succ_getD _ 0 (by rw [build_buckets_length]; omega), List.take_zero,
      List.nil_append]
    rw [show ([(build_buckets prepared maxLen).getD 0 []]).flatten =
      (build_buckets prepared maxLen).getD 0 [] by simp]
    rw [build_buckets_getD prepared maxLen hlen 0, List.countP_filter]
    apply List.countP_congr
    intro p _
    cases h : p.2.length <;> simp [h]
  | succ k ih =>
    intro hk
    rw [take_succ_getD _ (k + 1) (by rw [build_buckets_length]; omega),
      List.flatten_append, List.countP_append, ih (by omega),
      show ([(build_buckets prepared maxLen).getD (k + 1) []]).flatten =
        (build_buckets prepared maxLen).getD (k + 1) [] by simp,
      build_buckets_getD prepared maxLen hlen (k + 1), List.countP_filter,
      countP_and_le_succ]

theorem applicable_countP (prepared : List (String × String)) (maxLen nameLen : Nat)
    (hlen : ∀ p ∈ prepared, p.2.length ≤ maxLen) (P : String × String → Bool) :
    (applicable_ids (build_cumulative (build_buckets prepared maxLen)) maxLen
      nameLen).countP P =
      if nameLen = 0 then 0
      else prepared.countP (fun p => P p && decide (p.2.length ≤ nameLen)) := by
  have hculen : (build_cumulative (build_buckets prepared maxLen)).length = maxLen + 1 := by
    rw [build_cumulative_spec, List.length_map, List.length_range, build_buckets_length]
  have hcuget : ∀ k, k ≤ maxLen →
      (build_cumulative (build_buckets prepared maxLen)).getD k [] =
        ((build_buckets prepared maxLen).take (k + 1)).flatten := by
    intro k hk
    rw [build_cumulative_spec, List.getD_eq_getElem?_getD, List.getElem?_map]
    rw [List.getElem?_range (by rw [build_buckets_length]; omega)]
    rfl
  rw [applicable_ids]
  by_cases h0 : nameLen = 0
  · simp [h0]
  · rw [if_neg h0]
    by_cases hbig : nameLen > maxLen
    · rw [if_pos hbig, if_pos (by omega : maxLen <
        (build_cumulative (build_buckets prepared maxLen)).length)]
      rw [hcuget maxLen (Nat.le_refl maxLen), countP_flatten_take prepared maxLen hlen P
        maxLen (Nat.le_refl maxLen), if_neg h0]
      apply List.countP_congr
      intro p hp
      have h1 : decide (p.2.length ≤ maxLen) = true := by
        simp
        exact hlen p hp
      have h2 : decide (p.2.length ≤ nameLen) = true := by
        simp
        have := hlen p hp
        omega
      rw [h1, h2]
    · rw [if_neg hbig, if_pos (by omega : nameLen <
        (build_cumulative (build_buckets prepared maxLen)).length)]
      rw [hcuget nameLen (by omega), countP_flatten_take prepared maxLen hlen P
        nameLen (by omega), if_neg h0]


theorem max_length_ge (cids : List String) : ∀ c ∈ cids, c.length ≤ max_length cids := by
  have haux : ∀ (l : List String) (init : Nat),
      init ≤ l.foldl (fun m c => max m c.length) init ∧
      ∀ c ∈ l, c.length ≤ l.foldl (fun m c => max m c.length) init := by
    intro l
    induction l with
    | nil => intro init; exact ⟨Nat.le_refl _, by simp⟩
    | cons a l ih =>
      intro init
      obtain ⟨h1, h2⟩ := ih (max init a.length)
      refine ⟨Nat.le_trans (Nat.le_max_left _ _) h1, ?_⟩
      intro c hc
      rcases List.mem_cons.mp hc with rfl | hmem
      · exact Nat.le_trans (Nat.le_max_right init c.length) h1
      · exact h2 c hmem
  exact (haux cids 0).2

theorem bucket_step_count (case_ids : List String) (cs : Bool) (cid : String)
    (folder : FolderEntry) :
    ((((applicable_ids
        (build_cumulative (build_buckets (case_ids.map fun c => (c, norm_id cs c))
          (max_length case_ids)))
        (max_length case_ids) (norm_id cs folder.name).length).filter
      (fun p => str_in p.2 (norm_id cs folder.name))).map (fun p => p.1)).count cid)
      = if str_in (norm_id cs cid) (norm_id cs folder.name) && !(folder.name == "")
          then case_ids.count cid else 0 := by
  have hlen : ∀ p ∈ case_ids.map fun c => (c, norm_id cs c),
      p.2.length ≤ max_length case_ids := by
    intro p hp
    obtain ⟨c, hc, rfl⟩ := List.mem_map.mp hp
    rw [norm_id_length]
    exact max_length_ge case_ids c hc
  rw [List.count, List.countP_map, List.countP_filter]
  have hP : (((fun k => k == cid) ∘ fun p => p.1) : (String × String) → Bool) =
      (fun p => p.1 == cid) := rfl
  rw [show (fun (p : String × String) => ((fun k => k == cid) ∘ fun p => p.1) p &&
      str_in p.2 (norm_id cs folder.name)) =
    (fun p => (p.1 == cid) && str_in p.2 (norm_id cs folder.name)) from rfl]
  rw [applicable_countP _ _ _ hlen]
  by_cases h0 : (norm_id cs folder.name).length = 0
  · rw [if_pos h0]
    have hname : folder.name = "" := by
      rw [string_eq_empty_iff_length]
      rw [norm_id_length] at h0
      exact h0
    have : (folder.name == "") = true := by simp [hname]
    simp [this]
  · rw [if_neg h0]
    rw [List.countP_map]
    rw [List.countP_congr (q := fun c => (c == cid) &&
        (str_in (norm_id cs c) (norm_id cs folder.name) &&
          decide ((norm_id cs c).length ≤ (norm_id cs folder.name).length)))
      (fun c _ => by simp [Function.comp, Bool.and_assoc])]
    rw [countP_beq_and]
    have hname : (folder.name == "") = false := by
      rw [beq_eq_false_iff_ne]
      intro hc
      rw [string_eq_empty_iff_length] at hc
      rw [norm_id_length] at h0
      exact h0 hc
    cases hstr : str_in (norm_id cs cid) (norm_id cs folder.name)
    · simp [hstr]
    · have hle : decide ((norm_id cs cid).length ≤ (norm_id cs folder.name).length) = true := by
        simp
        exact str_in_length_le hstr
      simp [hstr, hle, hname]
      rfl


theorem foldl_push_fst {β : Type} (l : List (String × String)) (d : PyDict β) (v : β) :
    l.foldl (fun res p => dict_push res p.1 v) d =
      (l.map (fun p => p.1)).foldl (fun res k => dict_push res k v) d := by
  induction l generalizing d with
  | nil => rfl
  | cons p l ih => simp [ih]

theorem bucket_step_get (case_ids : List String) (cs : Bool) (cid : String)
    (folder : FolderEntry) (d : PyDict FolderEntry) :
    dict_get ((applicable_ids
        (build_cumulative (build_buckets (case_ids.map fun c => (c, norm_id cs c))
          (max_length case_ids)))
        (max_length case_ids) (norm_id cs folder.name).length).foldl
      (fun results p => if str_in p.2 (norm_id cs folder.name)
        then dict_push results p.1 folder else results) d) cid =
      dict_get d cid ++
        (if dict_has_key d cid then
          (if str_in (norm_id cs cid) (norm_id cs folder.name) && !(folder.name == "")
            then List.replicate (case_ids.count cid) folder else []) else []) := by
  rw [foldl_ite_filter, foldl_push_fst, dict_push_fold_get, bucket_step_count]
  by_cases hk : dict_has_key d cid = true
  · rw [if_pos hk, if_pos hk]
    by_cases hc : (str_in (norm_id cs cid) (norm_id cs folder.name) &&
        !(folder.name == "")) = true
    · rw [if_pos hc, if_pos hc]
    · rw [if_neg hc, if_neg hc]
      simp
  · rw [if_neg hk, if_neg hk]

theorem bucket_step_has_key (case_ids : List String) (cs : Bool) (k : String)
    (folder : FolderEntry) (d : PyDict FolderEntry) :
    dict_has_key ((applicable_ids
        (build_cumulative (build_buckets (case_ids.map fun c => (c, norm_id cs c))
          (max_length case_ids)))
        (max_length case_ids) (norm_id cs folder.name).length).foldl
      (fun results p => if str_in p.2 (norm_id cs folder.name)
        then dict_push results p.1 folder else results) d) k = dict_has_key d k := by
  rw [foldl_ite_filter, foldl_push_fst, dict_push_fold_has_key]

theorem bucket_step_keys (case_ids : List String) (cs : Bool)
    (folder : FolderEntry) (d : PyDict FolderEntry) :
    dict_keys ((applicable_ids
        (build_cumulative (build_buckets (case_ids.map fun c => (c, norm_id cs c))
          (max_length case_ids)))
        (max_length case_ids) (norm_id cs folder.name).length).foldl
      (fun results p => if str_in p.2 (norm_id cs folder.name)
        then dict_push results p.1 folder else results) d) = dict_keys d := by
  rw [foldl_ite_filter, foldl_push_fst, dict_keys_push_fold]

theorem bucket_fold_get (case_ids : List String) (cs : Bool) (cid : String) :
    ∀ (folders : List FolderEntry) (d : PyDict FolderEntry),
      (cid ∈ case_ids → dict_has_key d cid = true) →
      dict_get (folders.foldl (fun results folder =>
        (applicable_ids
          (build_cumulative (build_buckets (case_ids.map fun c => (c, norm_id cs c))
            (max_length case_ids)))
          (max_length case_ids) (norm_id cs folder.name).length).foldl
        (fun results p => if str_in p.2 (norm_id cs folder.name)
          then dict_push results p.1 folder else results) results) d) cid =
      dict_get d cid ++
        (folders.filter (fun f => str_in (norm_id cs cid) (norm_id cs f.name) &&
          !(f.name == ""))).flatMap (fun f => List.replicate (case_ids.count cid) f) := by
  intro folders
  induction folders with
  | nil => intro d _; simp
  | cons f fs ih =>
    intro d hkey
    simp only [List.foldl_cons]
    rw [ih _ (fun hm => by rw [bucket_step_has_key]; exact hkey hm)]
    rw [bucket_step_get]
    cases hcb : (str_in (norm_id cs cid) (norm_id cs f.name) && !(f.name == ""))
    · rw [List.filter_cons_of_neg (by simp [hcb])]
      by_cases hk : dict_has_key d cid = true <;> simp [hk]
    · rw [List.filter_cons_of_pos (by simp [hcb])]
      by_cases hmem : cid ∈ case_ids
      · rw [if_pos (hkey hmem)]
        simp [List.append_assoc]
      · have hcnt : case_ids.count cid = 0 := List.count_eq_zero.mpr hmem
        by_cases hk : dict_has_key d cid = true <;> simp [hk, hcnt]

theorem bucket_get (case_ids : List String) (folders : List FolderEntry) (cs : Bool)
    (cid : String) :
    dict_get (_match_with_length_buckets case_ids folders cs) cid =
      (folders.filter (fun f => str_in (norm_id cs cid) (norm_id cs f.name) &&
        !(f.name == ""))).flatMap (fun f => List.replicate (case_ids.count cid) f) := by
  have h := bucket_fold_get case_ids cs cid folders (dict_init case_ids)
    (fun hm => by rw [dict_has_key_init]; exact List.elem_eq_true_of_mem hm)
  rw [dict_get_init, List.nil_append] at h
  exact h

theorem bucket_fold_keys (case_ids : List String) (cs : Bool) :
    ∀ (folders : List FolderEntry) (d : PyDict FolderEntry),
      dict_keys (folders.foldl (fun results folder =>
        (applicable_ids
          (build_cumulative (build_buckets (case_ids.map fun c => (c, norm_id cs c))
            (max_length case_ids)))
          (max_length case_ids) (norm_id cs folder.name).length).foldl
        (fun results p => if str_in p.2 (norm_id cs folder.name)
          then dict_push results p.1 folder else results) results) d) = dict_keys d := by
  intro folders
  induction folders with
  | nil => intro d; rfl
  | cons f fs ih =>
    intro d
    simp only [List.foldl_cons]
    rw [ih, bucket_step_keys]

theorem bucket_keys (case_ids : List String) (folders : List FolderEntry) (cs : Bool) :
    dict_keys (_match_with_length_buckets case_ids folders cs) =
      dict_keys (dict_init case_ids : PyDict FolderEntry) :=
  bucket_fold_keys case_ids cs folders (dict_init case_ids)

theorem count_filter_pred (cs : Bool) (case_ids : List String) (cid p : String) :
    (case_ids.filter (fun c => norm_id cs c == p)).count cid =
      if norm_id cs cid == p then case_ids.count cid else 0 := by
  cases hp : norm_id cs cid == p
  · rw [if_neg (by simp [hp])]
    rw [List.count_eq_zero]
    intro hc
    rw [List.mem_filter] at hc
    rw [hc.2] at hp
    exact absurd hp (by simp)
  · rw [if_pos rfl]
    exact List.count_filter hp
  
theorem aho_flat_count (cs : Bool) (case_ids : List String) (cid : String) :
    ∀ (ms : List String), ms.Nodup →
      ((ms.flatMap (fun p => case_ids.filter (fun c => norm_id cs c == p))).count cid) =
        if norm_id cs cid ∈ ms then case_ids.count cid else 0 := by
  intro ms
  induction ms with
  | nil => intro _; simp
  | cons p ms ih =>
    intro hnd
    rw [List.nodup_cons] at hnd
    rw [List.flatMap_cons, List.count_append, ih hnd.2, count_filter_pred]
    by_cases hp : norm_id cs cid = p
    · rw [if_pos (by simp [hp])]
      rw [if_neg (by rw [hp]; exact hnd.1)]
      rw [if_pos (by simp [hp])]
      omega
    · rw [if_neg (by simp [hp])]
      by_cases hm : norm_id cs cid ∈ ms
      · rw [if_pos hm, if_pos (by simp [hp, hm])]
        omega
      · rw [if_neg hm, if_neg (by simp [hp, hm])]

theorem aho_matched_nodup (case_ids : List String) (cs : Bool) (fname : String) :
    (aho_matched_patterns case_ids cs fname).Nodup :=
  (List.nodup_dedup _).filter _

theorem aho_step_get (case_ids : List String) (cs : Bool) (cid : String)
    (folder : FolderEntry) (d : PyDict FolderEntry) :
    dict_get ((aho_matched_patterns case_ids cs (norm_id cs folder.name)).foldl
      (fun results pattern => (dict_get (pattern_to_caseids case_ids cs) pattern).foldl
        (fun results cid => dict_push results cid folder) results) d) cid =
      dict_get d cid ++ (if dict_has_key d cid then
        (if norm_id cs cid ∈ aho_matched_patterns case_ids cs (norm_id cs folder.name)
          then List.replicate (case_ids.count cid) folder else []) else []) := by
  rw [foldl_nested_flatMap]
  have hg : dict_get (pattern_to_caseids case_ids cs) =
      (fun pattern => case_ids.filter (fun c => norm_id cs c == pattern)) :=
    funext (fun p => p2c_get_generic (norm_id cs) case_ids p)
  rw [hg, dict_push_fold_get, aho_flat_count cs case_ids cid _
    (aho_matched_nodup case_ids cs (norm_id cs folder.name))]
  by_cases hk : dict_has_key d cid = true
  · rw [if_pos hk, if_pos hk]
    by_cases hm : norm_id cs cid ∈ aho_matched_patterns case_ids cs (norm_id cs folder.name)
    · rw [if_pos hm, if_pos hm]
    · rw [if_neg hm, if_neg hm]
      simp
  · rw [if_neg hk, if_neg hk]

theorem aho_step_has_key (case_ids : List String) (cs : Bool) (k : String)
    (folder : FolderEntry) (d : PyDict FolderEntry) :
    dict_has_key ((aho_matched_patterns case_ids cs (norm_id cs folder.name)).foldl
      (fun results pattern => (dict_get (pattern_to_caseids case_ids cs) pattern).foldl
        (fun results cid => dict_push results cid folder) results) d) k = dict_has_key d k := by
  rw [foldl_nested_flatMap, dict_push_fold_has_key]

theorem aho_step_keys (case_ids : List String) (cs : Bool)
    (folder : FolderEntry) (d : PyDict FolderEntry) :
    dict_keys ((aho_matched_patterns case_ids cs (norm_id cs folder.name)).foldl
      (fun results pattern => (dict_get (pattern_to_caseids case_ids cs) pattern).foldl
        (fun results cid => dict_push results cid folder) results) d) = dict_keys d := by
  rw [foldl_nested_flatMap, dict_keys_push_fold]

theorem aho_fold_get (case_ids : List String) (cs : Bool) (cid : String) :
    ∀ (folders : List FolderEntry) (d : PyDict FolderEntry),
      (cid ∈ case_ids → dict_has_key d cid = true) →
      dict_get (folders.foldl (fun results folder =>
        (aho_matched_patterns case_ids cs (norm_id cs folder.name)).foldl
          (fun results pattern => (dict_get (pattern_to_caseids case_ids cs) pattern).foldl
            (fun results cid => dict_push results cid folder) results) results) d) cid =
      dict_get d cid ++
        (folders.filter (fun f => decide (norm_id cs cid ∈
          aho_matched_patterns case_ids cs (norm_id cs f.name)))).flatMap
            (fun f => List.replicate (case_ids.count cid) f) := by
  intro folders
  induction folders with
  | nil => intro d _; simp
  | cons f fs ih =>
    intro d hkey
    simp only [List.foldl_cons]
    rw [ih _ (fun hm => by rw [aho_step_has_key]; exact hkey hm)]
    rw [aho_step_get]
    by_cases hmf : norm_id cs cid ∈ aho_matched_patterns case_ids cs (norm_id cs f.name)
    · rw [List.filter_cons_of_pos (by simp [hmf]), if_pos hmf]
      by_cases hmem : cid ∈ case_ids
      · rw [if_pos (hkey hmem)]
        simp [List.append_assoc]
      · have hcnt : case_ids.count cid = 0 := List.count_eq_zero.mpr hmem
        by_cases hk : dict_has_key d cid = true <;> simp [hk, hcnt]
    · rw [List.filter_cons_of_neg (by simp [hmf]), if_neg hmf]
      by_cases hk : dict_has_key d cid = true <;> simp [hk]

theorem aho_get (case_ids : List String) (folders : List FolderEntry) (cs : Bool)
    (cid : String) :
    dict_get (_match_with_ahocorasick case_ids folders cs) cid =
      (folders.filter (fun f => decide (norm_id cs cid ∈
        aho_matched_patterns case_ids cs (norm_id cs f.name)))).flatMap
          (fun f => List.replicate (case_ids.count cid) f) := by
  have h := aho_fold_get case_ids cs cid folders (dict_init case_ids)
    (fun hm => by rw [dict_has_key_init]; exact List.elem_eq_true_of_mem hm)
  rw [dict_get_init, List.nil_append] at h
  exact h

theorem aho_fold_keys (case_ids : List String) (cs : Bool) :
    ∀ (folders : List FolderEntry) (d : PyDict FolderEntry),
      dict_keys (folders.foldl (fun results folder =>
        (aho_matched_patterns case_ids cs (norm_id cs folder.name)).foldl
          (fun results pattern => (dict_get (pattern_to_caseids case_ids cs) pattern).foldl
            (fun results cid => dict_push results cid folder) results) results) d) =
        dict_keys d := by
  intro folders
  induction folders with
  | nil => intro d; rfl
  | cons f fs ih =>
    intro d
    simp only [List.foldl_cons]
    rw [ih, aho_step_keys]

theorem aho_keys (case_ids : List String) (folders : List FolderEntry) (cs : Bool) :
    dict_keys (_match_with_ahocorasick case_ids folders cs) =
      dict_keys (dict_init case_ids : PyDict FolderEntry) :=
  aho_fold_keys case_ids cs folders (dict_init case_ids)


theorem bucket_fold_has_key (case_ids : List String) (cs : Bool) (k : String) :
    ∀ (folders : List FolderEntry) (d : PyDict FolderEntry),
      dict_has_key (folders.foldl (fun results folder =>
        (applicable_ids
          (build_cumulative (build_buckets (case_ids.map fun c => (c, norm_id cs c))
            (max_length case_ids)))
          (max_length case_ids) (norm_id cs folder.name).length).foldl
        (fun results p => if str_in p.2 (norm_id cs folder.name)
          then dict_push results p.1 folder else results) results) d) k =
        dict_has_key d k := by
  intro folders
  induction folders with
  | nil => intro d; rfl
  | cons f fs ih =>
    intro d
    simp only [List.foldl_cons]
    rw [ih, bucket_step_has_key]

theorem mem_flatMap_replicate {α : Type} (l : List α) (n : Nat) (x : α) :
    x ∈ l.flatMap (fun g => List.replicate n g) ↔ n ≠ 0 ∧ x ∈ l := by
  rw [List.mem_flatMap]
  constructor
  · rintro ⟨g, hg, hx⟩
    rw [List.mem_replicate] at hx
    exact ⟨hx.1, hx.2 ▸ hg⟩
  · rintro ⟨hn, hx⟩
    exact ⟨x, hx, List.mem_replicate.mpr ⟨hn, rfl⟩⟩

theorem flatMap_const_nil {α β : Type} (l : List α) :
    l.flatMap (fun _ => ([] : List β)) = [] := by
  induction l <;> simp [*]

/-- C5 (amended): for the bucket matcher behind `match_caseids`, every input
identifier is a key of the result, and a folder entry of the input appears in
an identifier's list iff the case-normalized identifier is a contiguous
substring of the case-normalized folder name AND the folder name is
non-empty: a folder whose name is the empty string matches nothing, not even
the empty identifier, although the empty string is a substring of it. -/
theorem c5_matcher_substring_law (case_ids : List String) (folders : List FolderEntry)
    (cs : Bool) (cid : String) (f : FolderEntry) :
    (cid ∈ case_ids →
      dict_has_key (match_caseids case_ids folders cs .bucket true) cid = true) ∧
    (cid ∈ case_ids → f ∈ folders →
      (f ∈ dict_get (match_caseids case_ids folders cs .bucket true) cid ↔
        (str_in (norm_id cs cid) (norm_id cs f.name) = true ∧ f.name ≠ ""))) := by
  constructor
  · intro hmem
    rw [match_caseids]
    by_cases hemp : (case_ids.isEmpty || folders.isEmpty) = true
    · rw [if_pos hemp, dict_has_key_init]
      exact List.elem_eq_true_of_mem hmem
    · rw [if_neg hemp]
      show dict_has_key (_match_with_length_buckets case_ids folders cs) cid = true
      rw [show _match_with_length_buckets case_ids folders cs =
        folders.foldl _ (dict_init case_ids) from rfl]
      rw [bucket_fold_has_key, dict_has_key_init]
      exact List.elem_eq_true_of_mem hmem
  · intro hmem hf
    rw [match_caseids]
    by_cases hemp : (case_ids.isEmpty || folders.isEmpty) = true
    · exfalso
      rcases Bool.or_eq_true_iff.mp hemp with h | h
      · rw [List.isEmpty_iff] at h
        rw [h] at hmem
        exact absurd hmem (List.not_mem_nil cid)
      · rw [List.isEmpty_iff] at h
        rw [h] at hf
        exact absurd hf (List.not_mem_nil f)
    · rw [if_neg hemp]
      show f ∈ dict_get (_match_with_length_buckets case_ids folders cs) cid ↔ _
      rw [bucket_get, mem_flatMap_replicate, List.mem_filter]
      constructor
      · rintro ⟨-, -, hcond⟩
        rw [Bool.and_eq_true, Bool.not_eq_true'] at hcond
        exact ⟨hcond.1, by simpa using hcond.2⟩
      · rintro ⟨hstr, hname⟩
        refine ⟨?_, hf, ?_⟩
        · intro hc
          rw [← List.count_pos_iff] at hmem
          omega
        · rw [Bool.and_eq_true, Bool.not_eq_true']
          exact ⟨hstr, by simpa using hname⟩

theorem c5_matcher_substring_law_witness :
    (FolderEntry.mk "Case_00123_A" "/a") ∈
      dict_get (match_caseids ["00123"] [FolderEntry.mk "Case_00123_A" "/a"] false
        .bucket true) "00123" :=
  ((c5_matcher_substring_law ["00123"] [FolderEntry.mk "Case_00123_A" "/a"] false
    "00123" (FolderEntry.mk "Case_00123_A" "/a")).2 (by decide) (by decide)).mpr
    ⟨by decide, by decide⟩

/-- C5 counterexample: with the empty identifier and a folder whose name is
the empty string, the substring law as claimed fails: the empty identifier is
a substring of the empty folder name, yet the bucket matcher puts the folder
in no list (its `name_len == 0` branch tests no identifiers at all). -/
theorem c5_counterexample :
    str_in (norm_id false "") (norm_id false "") = true ∧
    ("" : String) ∈ [""] ∧
    (FolderEntry.mk "" "/p") ∈ [FolderEntry.mk "" "/p"] ∧
    ¬ (FolderEntry.mk "" "/p") ∈
      dict_get (match_caseids [""] [FolderEntry.mk "" "/p"] false .bucket true) "" := by
  refine ⟨by decide, by decide, by decide, ?_⟩
  decide

/-- C6: the matcher neither rejects an empty identifier nor defines it to
match nothing: the empty identifier matches every folder whose name is
non-empty.  Evaluated at the failing input, both folders land in the empty
identifier's list. -/
theorem c6_empty_identifier_matches_all :
    dict_get (match_caseids [""] [FolderEntry.mk "a" "/a", FolderEntry.mk "b" "/b"]
      false .bucket true) "" =
      [FolderEntry.mk "a" "/a", FolderEntry.mk "b" "/b"] := by
  decide

/-- C7 (amended): when no identifier is the empty string, the bucket strategy
and the Aho-Corasick automaton strategy return identical
identifier-to-matched-folders mappings (same values at every key, same key
sequence).  For an empty identifier they diverge: the bucket matcher matches
it to every non-empty-named folder while the automaton, which never holds
the empty word, matches it to nothing. -/
theorem c7_matcher_equivalence (case_ids : List String) (folders : List FolderEntry)
    (cs : Bool) (hne : ∀ c ∈ case_ids, c ≠ "") :
    (∀ cid, dict_get (_match_with_ahocorasick case_ids folders cs) cid =
      dict_get (_match_with_length_buckets case_ids folders cs) cid) ∧
    dict_keys (_match_with_ahocorasick case_ids folders cs) =
      dict_keys (_match_with_length_buckets case_ids folders cs) := by
  constructor
  · intro cid
    rw [aho_get, bucket_get]
    by_cases hmem : cid ∈ case_ids
    · have hcne : cid ≠ "" := hne cid hmem
      have hnne : norm_id cs cid ≠ "" := fun hc => hcne ((norm_id_eq_empty_iff cs cid).mp hc)
      congr 1
      apply List.filter_congr
      intro f _
      cases hstr : str_in (norm_id cs cid) (norm_id cs f.name)
      · rw [Bool.false_and]
        rw [decide_eq_false]
        intro hc
        rw [aho_matched_patterns, List.mem_filter] at hc
        rw [hc.2] at hstr
        exact absurd hstr (by simp)
      · have hfne : f.name ≠ "" := by
          intro hc
          have hlen := str_in_length_le hstr
          rw [norm_id_length, norm_id_length, hc] at hlen
          have : cid.length = 0 := by
            have : ("" : String).length = 0 := rfl
            omega
          rw [← string_eq_empty_iff_length] at this
          exact hcne this
        rw [Bool.true_and, decide_eq_true]
        · simp [hfne]
        · rw [aho_matched_patterns, List.mem_filter]
          refine ⟨?_, hstr⟩
          rw [aho_words, List.mem_dedup, List.mem_filter]
          refine ⟨List.mem_map_of_mem _ hmem, by simpa using hnne⟩
    · have hcnt : case_ids.count cid = 0 := List.count_eq_zero.mpr hmem
      simp only [hcnt, List.replicate_zero]
      rw [flatMap_const_nil, flatMap_const_nil]
  · rw [aho_keys, bucket_keys]

theorem c7_matcher_equivalence_witness :
    dict_get (_match_with_ahocorasick ["x"] [FolderEntry.mk "ax" "/a"] false) "x" =
      dict_get (_match_with_length_buckets ["x"] [FolderEntry.mk "ax" "/a"] false) "x" :=
  (c7_matcher_equivalence ["x"] [FolderEntry.mk "ax" "/a"] false (by decide)).1 "x"

/-- C7 counterexample: on the empty identifier the two strategies differ:
the bucket matcher matches it to the folder named "a", the automaton
strategy to nothing. -/
theorem c7_counterexample :
    dict_get (_match_with_length_buckets [""] [FolderEntry.mk "a" "/a"] false) "" =
      [FolderEntry.mk "a" "/a"] ∧
    dict_get (_match_with_ahocorasick [""] [FolderEntry.mk "a" "/a"] false) "" = [] := by
  refine ⟨by decide, by decide⟩


namespace FolderMover

theorem excl_eq (cfg : MoverConfig) (m : FolderMatch) :
    (if !cfg.exclude_patterns.isEmpty then
      matches_exclusion_pattern m.folder_name cfg.exclude_patterns
    else none) = matches_exclusion_pattern m.folder_name cfg.exclude_patterns := by
  cases hpe : cfg.exclude_patterns with
  | nil => simp [matches_exclusion_pattern]
  | cons a l => simp

theorem move_folder_excluded (cfg : MoverConfig) (st : MoverState) (m : FolderMatch)
    (pattern : String)
    (h : matches_exclusion_pattern m.folder_name cfg.exclude_patterns = some pattern) :
    move_folder cfg st m = .ok
      ({ case_id := m.case_id, source_path := m.source_path, dest_path := none,
         status := .skipped_excluded, message := "Excluded by pattern: " ++ pattern },
       { st with stats := bump_stats st.stats .skipped_excluded }) := by
  rw [move_folder, excl_eq cfg m, h]


theorem move_folder_resume (cfg : MoverConfig) (st : MoverState) (m : FolderMatch)
    (hx : matches_exclusion_pattern m.folder_name cfg.exclude_patterns = none)
    (hres : cfg.already_moved_paths.contains m.source_path = true) :
    move_folder cfg st m = .ok
      ({ case_id := m.case_id, source_path := m.source_path, dest_path := none,
         status := .skipped_resume, message := "Already processed in previous run (resumed)" },
       { st with stats := bump_stats st.stats .skipped_resume }) := by
  rw [move_folder, excl_eq cfg m, hx]
  simp only [if_pos hres]

theorem move_folder_missing (cfg : MoverConfig) (st : MoverState) (m : FolderMatch)
    (hx : matches_exclusion_pattern m.folder_name cfg.exclude_patterns = none)
    (hres : cfg.already_moved_paths.contains m.source_path = false)
    (hmiss : path_exists st.fs m.source_path = false) :
    move_folder cfg st m = .ok
      ({ case_id := m.case_id, source_path := m.source_path, dest_path := none,
         status := .skipped_missing,
         message := "Source folder no longer exists (may have been moved already)" },
       { st with stats := bump_stats st.stats .skipped_missing }) := by
  rw [move_folder, excl_eq cfg m, hx]
  rw [if_neg (by rw [hres]; exact Bool.false_ne_true)]
  rw [if_pos (by rw [hmiss]; rfl)]

theorem move_folder_dup_skip (cfg : MoverConfig) (st : MoverState) (m : FolderMatch)
    (hx : matches_exclusion_pattern m.folder_name cfg.exclude_patterns = none)
    (hres : cfg.already_moved_paths.contains m.source_path = false)
    (hmiss : path_exists st.fs m.source_path = true)
    (hdup : cfg.duplicate_case_ids.contains m.case_id = true)
    (hact : cfg.duplicates_action = .skip) :
    move_folder cfg st m = .ok
      ({ case_id := m.case_id, source_path := m.source_path, dest_path := none,
         status := .skipped_duplicate,
         message := "Duplicate CaseID skipped (--duplicates-action=skip)" },
       { st with stats := bump_stats st.stats .skipped_duplicate }) := by
  rw [move_folder, excl_eq cfg m, hx]
  rw [if_neg (by rw [hres]; exact Bool.false_ne_true)]
  rw [if_neg (by rw [hmiss]; simp)]
  rw [if_pos (by rw [hdup, hact]; rfl)]

theorem move_folder_to_quarantine (cfg : MoverConfig) (st : MoverState) (m : FolderMatch)
    (hx : matches_exclusion_pattern m.folder_name cfg.exclude_patterns = none)
    (hres : cfg.already_moved_paths.contains m.source_path = false)
    (hmiss : path_exists st.fs m.source_path = true)
    (hdup : cfg.duplicate_case_ids.contains m.case_id = true)
    (hact : cfg.duplicates_action = .quarantine) :
    move_folder cfg st m = _move_to_quarantine cfg st m := by
  rw [move_folder, excl_eq cfg m, hx]
  rw [if_neg (by rw [hres]; exact Bool.false_ne_true)]
  rw [if_neg (by rw [hmiss]; simp)]
  rw [if_neg (by rw [hdup, hact]; simp)]
  rw [if_pos (by rw [hdup, hact]; rfl)]

theorem move_folder_skip_exists (cfg : MoverConfig) (st : MoverState) (m : FolderMatch)
    (hx : matches_exclusion_pattern m.folder_name cfg.exclude_patterns = none)
    (hres : cfg.already_moved_paths.contains m.source_path = false)
    (hmiss : path_exists st.fs m.source_path = true)
    (hnq : (cfg.duplicate_case_ids.contains m.case_id &&
      (cfg.duplicates_action == .skip)) = false)
    (hnq2 : (cfg.duplicate_case_ids.contains m.case_id &&
      (cfg.duplicates_action == .quarantine)) = false)
    (hde : (path_exists st.fs (cfg.dest_root ++ [m.folder_name]) ||
      st.claimed_names.contains m.folder_name) = true)
    (hskip : cfg.on_dest_exists = .skip) :
    move_folder cfg st m = .ok
      ({ case_id := m.case_id, source_path := m.source_path,
         dest_path := some (cfg.dest_root ++ [m.folder_name]), status := .skipped_exists,
         message := "Destination exists (skipped due to --on-dest-exists=skip)" },
       { st with stats := bump_stats st.stats .skipped_exists }) := by
  rw [move_folder, excl_eq cfg m, hx]
  rw [if_neg (by rw [hres]; exact Bool.false_ne_true)]
  rw [if_neg (by rw [hmiss]; simp)]
  rw [if_neg (by rw [hnq]; exact Bool.false_ne_true)]
  rw [if_neg (by rw [hnq2]; exact Bool.false_ne_true)]
  rw [if_pos (by rw [hde, hskip]; rfl)]

theorem move_folder_main_resolved (cfg : MoverConfig) (st : MoverState) (m : FolderMatch)
    (dest_path : Path)
    (hx : matches_exclusion_pattern m.folder_name cfg.exclude_patterns = none)
    (hres : cfg.already_moved_paths.contains m.source_path = false)
    (hmiss : path_exists st.fs m.source_path = true)
    (hnq : (cfg.duplicate_case_ids.contains m.case_id &&
      (cfg.duplicates_action == .skip)) = false)
    (hnq2 : (cfg.duplicate_case_ids.contains m.case_id &&
      (cfg.duplicates_action == .quarantine)) = false)
    (hde : ((path_exists st.fs (cfg.dest_root ++ [m.folder_name]) ||
      st.claimed_names.contains m.folder_name) && (cfg.on_dest_exists == .skip)) = false)
    (hsolve : resolve_destination st.fs cfg.dest_root m.folder_name st.claimed_names =
      .ok dest_path) :
    move_folder cfg st m =
      (let dest_name := dest_path.getLastD ""
       let claimed' := set_add st.claimed_names dest_name
       let prim := move_folder_prim st.fs m.source_path dest_path cfg.dry_run
       let result := prim.1
       let was_renamed := !(dest_name == m.folder_name)
       let status_message : MoveStatus × String :=
         if result.status == .success && was_renamed then
           (.success_renamed,
            "Moved successfully (renamed from " ++ m.folder_name ++ " to " ++ dest_name ++ ")")
         else if result.status == .dry_run && was_renamed then
           (.dry_run_renamed,
            "Would move to " ++ path_str dest_path ++ " (renamed from " ++
              m.folder_name ++ " to " ++ dest_name ++ ")")
         else (result.status, result.message)
       let final_result : MoveResult :=
         { case_id := m.case_id, source_path := result.source_path,
           dest_path := result.dest_path, status := status_message.1,
           message := status_message.2 }
       .ok (final_result,
         { fs := prim.2, claimed_names := claimed',
           quarantine_claimed := st.quarantine_claimed,
           stats := bump_stats st.stats final_result.status })) := by
  rw [move_folder, excl_eq cfg m, hx]
  rw [if_neg (by rw [hres]; exact Bool.false_ne_true)]
  rw [if_neg (by rw [hmiss]; simp)]
  rw [if_neg (by rw [hnq]; exact Bool.false_ne_true)]
  rw [if_neg (by rw [hnq2]; exact Bool.false_ne_true)]
  rw [if_neg (by rw [hde]; exact Bool.false_ne_true)]
  rw [hsolve]

theorem move_folder_main_err (cfg : MoverConfig) (st : MoverState) (m : FolderMatch)
    (e : PyExc)
    (hx : matches_exclusion_pattern m.folder_name cfg.exclude_patterns = none)
    (hres : cfg.already_moved_paths.contains m.source_path = false)
    (hmiss : path_exists st.fs m.source_path = true)
    (hnq : (cfg.duplicate_case_ids.contains m.case_id &&
      (cfg.duplicates_action == .skip)) = false)
    (hnq2 : (cfg.duplicate_case_ids.contains m.case_id &&
      (cfg.duplicates_action == .quarantine)) = false)
    (hde : ((path_exists st.fs (cfg.dest_root ++ [m.folder_name]) ||
      st.claimed_names.contains m.folder_name) && (cfg.on_dest_exists == .skip)) = false)
    (hsolve : resolve_destination st.fs cfg.dest_root m.folder_name st.claimed_names =
      .error e) :
    move_folder cfg st m = .error e := by
  rw [move_folder, excl_eq cfg m, hx]
  rw [if_neg (by rw [hres]; exact Bool.false_ne_true)]
  rw [if_neg (by rw [hmiss]; simp)]
  rw [if_neg (by rw [hnq]; exact Bool.false_ne_true)]
  rw [if_neg (by rw [hnq2]; exact Bool.false_ne_true)]
  rw [if_neg (by rw [hde]; exact Bool.false_ne_true)]
  rw [hsolve]

theorem rqd_ok (cfg : MoverConfig) (st : MoverState) (case_id folder_name : String)
    (dest_path : Path)
    (hsolve : resolve_destination st.fs (cfg.dest_root ++ [DUPLICATES_FOLDER, case_id])
      folder_name (qget st.quarantine_claimed case_id) = .ok dest_path) :
    _resolve_quarantine_destination cfg st case_id folder_name = .ok (dest_path,
      { st with
          quarantine_claimed := qset st.quarantine_claimed case_id
            (set_add (qget st.quarantine_claimed case_id) (dest_path.getLastD "")) }) := by
  rw [_resolve_quarantine_destination, hsolve]

theorem rqd_err (cfg : MoverConfig) (st : MoverState) (case_id folder_name : String)
    (e : PyExc)
    (hsolve : resolve_destination st.fs (cfg.dest_root ++ [DUPLICATES_FOLDER, case_id])
      folder_name (qget st.quarantine_claimed case_id) = .error e) :
    _resolve_quarantine_destination cfg st case_id folder_name = .error e := by
  rw [_resolve_quarantine_destination, hsolve]

theorem mtq_ok (cfg : MoverConfig) (st : MoverState) (m : FolderMatch)
    (dest_path : Path) (st1 : MoverState)
    (hq : _resolve_quarantine_destination cfg st m.case_id m.folder_name =
      .ok (dest_path, st1)) :
    _move_to_quarantine cfg st m =
      (let dest_name := dest_path.getLastD ""
       let prim := move_folder_prim st1.fs m.source_path dest_path cfg.dry_run
       let result := prim.1
       let was_renamed := !(dest_name == m.folder_name)
       let status_message : MoveStatus × String :=
         if result.status == .success then
           if was_renamed then
             (.quarantined_renamed,
              "Quarantined duplicate (renamed from " ++ m.folder_name ++ " to " ++
                dest_name ++ ")")
           else (.quarantined, "Quarantined duplicate to " ++ path_str dest_path)
         else if result.status == .dry_run then
           if was_renamed then
             (.dry_run_quarantine_renamed,
              "Would quarantine to " ++ path_str dest_path ++ " (renamed from " ++
                m.folder_name ++ " to " ++ dest_name ++ ")")
           else (.dry_run_quarantine,
             "Would quarantine duplicate to " ++ path_str dest_path)
         else (result.status, result.message)
       let final_result : MoveResult :=
         { case_id := m.case_id, source_path := result.source_path,
           dest_path := result.dest_path, status := status_message.1,
           message := status_message.2 }
       .ok (final_result,
         { st1 with fs := prim.2, stats := bump_stats st1.stats final_result.status })) := by
  rw [_move_to_quarantine, hq]

theorem mtq_err (cfg : MoverConfig) (st : MoverState) (m : FolderMatch) (e : PyExc)
    (hq : _resolve_quarantine_destination cfg st m.case_id m.folder_name = .error e) :
    _move_to_quarantine cfg st m = .error e := by
  rw [_move_to_quarantine, hq]


theorem move_folder_case_id (cfg : MoverConfig) (st : MoverState) (m : FolderMatch)
    (r : MoveResult) (st' : MoverState)
    (h : move_folder cfg st m = .ok (r, st')) : r.case_id = m.case_id := by
  cases hx : matches_exclusion_pattern m.folder_name cfg.exclude_patterns with
  | some pat =>
    rw [move_folder_excluded cfg st m pat hx] at h
    simp only [Except.ok.injEq, Prod.mk.injEq] at h
    rw [← h.1]
  | none =>
    cases hres : cfg.already_moved_paths.contains m.source_path with
    | true =>
      rw [move_folder_resume cfg st m hx hres] at h
      simp only [Except.ok.injEq, Prod.mk.injEq] at h
      rw [← h.1]
    | false =>
      cases hmiss : path_exists st.fs m.source_path with
      | false =>
        rw [move_folder_missing cfg st m hx hres hmiss] at h
        simp only [Except.ok.injEq, Prod.mk.injEq] at h
        rw [← h.1]
      | true =>
        have hmain : ∀ (hnq : (cfg.duplicate_case_ids.contains m.case_id &&
            (cfg.duplicates_action == DuplicatesAction.skip)) = false)
            (hnq2 : (cfg.duplicate_case_ids.contains m.case_id &&
            (cfg.duplicates_action == DuplicatesAction.quarantine)) = false),
            r.case_id = m.case_id := by
          intro hnq hnq2
          cases hdesc : ((path_exists st.fs (cfg.dest_root ++ [m.folder_name]) ||
              st.claimed_names.contains m.folder_name) &&
              (cfg.on_dest_exists == DestExistsBehavior.skip)) with
          | true =>
            rw [Bool.and_eq_true] at hdesc
            have hsk : cfg.on_dest_exists = .skip := by
              have := hdesc.2
              cases hcs : cfg.on_dest_exists
              · rw [hcs] at this; exact absurd this (by decide)
              · rfl
            rw [move_folder_skip_exists cfg st m hx hres hmiss hnq hnq2 hdesc.1 hsk] at h
            simp only [Except.ok.injEq, Prod.mk.injEq] at h
            rw [← h.1]
          | false =>
            cases hsolve : resolve_destination st.fs cfg.dest_root m.folder_name
                st.claimed_names with
            | error e =>
              rw [move_folder_main_err cfg st m e hx hres hmiss hnq hnq2 hdesc hsolve] at h
              exact absurd h (by simp)
            | ok dp =>
              rw [move_folder_main_resolved cfg st m dp hx hres hmiss hnq hnq2 hdesc
                hsolve] at h
              simp only [Except.ok.injEq, Prod.mk.injEq] at h
              rw [← h.1]
        cases hdup : cfg.duplicate_case_ids.contains m.case_id with
        | false => exact hmain (by rw [hdup]; rfl) (by rw [hdup]; rfl)
        | true =>
          cases hact : cfg.duplicates_action with
          | skip =>
            rw [move_folder_dup_skip cfg st m hx hres hmiss hdup hact] at h
            simp only [Except.ok.injEq, Prod.mk.injEq] at h
            rw [← h.1]
          | quarantine =>
            rw [move_folder_to_quarantine cfg st m hx hres hmiss hdup hact] at h
            cases hq : _resolve_quarantine_destination cfg st m.case_id m.folder_name with
            | error e =>
              rw [mtq_err cfg st m e hq] at h
              exact absurd h (by simp)
            | ok pr =>
              rw [mtq_ok cfg st m pr.1 pr.2 (by rw [hq])] at h
              simp only [Except.ok.injEq, Prod.mk.injEq] at h
              rw [← h.1]
          | move_all =>
            exact hmain (by rw [hdup, hact]; rfl) (by rw [hdup, hact]; rfl)

theorem move_all_go_spec (cfg : MoverConfig) :
    ∀ (ms : List FolderMatch) (st : MoverState) (ops : Nat) (acc : List MoveResult)
      (res : List MoveResult) (st' : MoverState),
      move_all_go cfg st ms ops acc = .ok (res, st') →
      ∃ tail, res = acc ++ tail ∧ tail.length ≤ ms.length ∧
        (tail.length < ms.length → ∃ k, cfg.max_moves = some k ∧
          k ≤ ops + tail.countP (fun r => op_statuses.contains r.status)) ∧
        List.Forall₂ (fun (r : MoveResult) (m : FolderMatch) => r.case_id = m.case_id)
          tail (ms.take tail.length) := by
  intro ms
  induction ms with
  | nil =>
    intro st ops acc res st' h
    rw [move_all_go] at h
    simp only [Except.ok.injEq, Prod.mk.injEq] at h
    refine ⟨[], by simp [← h.1], by simp, by simp, by simp⟩
  | cons m rest ih =>
    intro st ops acc res st' h
    rw [move_all_go] at h
    by_cases hb : budget_reached cfg.max_moves ops = true
    · rw [if_pos hb] at h
      simp only [Except.ok.injEq, Prod.mk.injEq] at h
      refine ⟨[], by simp [← h.1], by simp, ?_, by simp⟩
      intro _
      cases hmm : cfg.max_moves with
      | none => rw [hmm] at hb; exact absurd hb (by simp [budget_reached])
      | some k =>
        rw [hmm] at hb
        simp only [budget_reached, decide_eq_true_eq] at hb
        exact ⟨k, rfl, by simpa using hb⟩
    · rw [if_neg hb] at h
      cases hmf : move_folder cfg st m with
      | error e => rw [hmf] at h; exact absurd h (by simp)
      | ok pr =>
        rw [hmf] at h
        obtain ⟨tail, htail, hlen, hbud, hids⟩ := ih pr.2 _ _ res st' h
        refine ⟨pr.1 :: tail, ?_, ?_, ?_, ?_⟩
        · rw [htail]; simp
        · simp only [List.length_cons]; omega
        · intro hlt
          simp only [List.length_cons] at hlt
          have := hbud (by omega)
          obtain ⟨k, hk, hle⟩ := this
          refine ⟨k, hk, ?_⟩
          rw [List.countP_cons]
          by_cases hop : op_statuses.contains pr.1.status = true
          · simp only [hop, if_true] at hle ⊢
            omega
          · rw [Bool.not_eq_true] at hop
            simp only [hop, Bool.false_eq_true, if_false] at hle ⊢
            omega
        · simp only [List.length_cons, List.take_succ_cons]
          exact List.Forall₂.cons (move_folder_case_id cfg st m pr.1 pr.2 (by rw [hmf]))
            hids

end FolderMover

/-- C1: `move_all` processes matches in input order, appends exactly one
outcome per processed match, and halts early exactly when the operation
budget is reached: the number of outcomes is at most the number of matches,
a shortfall implies the budget `max_moves = some k` was exhausted by at
least `k` outcomes with operation statuses (skip and error outcomes never
consume budget), and every outcome's identifier equals the identifier of
the match it was produced from. -/
theorem c1_move_all_outcomes (cfg : MoverConfig) (st : MoverState)
    (ms : List FolderMatch) (results : List MoveResult) (st' : MoverState)
    (h : FolderMover.move_all cfg st ms = .ok (results, st')) :
    results.length ≤ ms.length ∧
    (results.length < ms.length → ∃ k, cfg.max_moves = some k ∧
      k ≤ results.countP (fun r => op_statuses.contains r.status)) ∧
    List.Forall₂ (fun (r : MoveResult) (m : FolderMatch) => r.case_id = m.case_id)
      results (ms.take results.length) := by
  obtain ⟨tail, htail, hlen, hbud, hids⟩ :=
    FolderMover.move_all_go_spec cfg ms st 0 [] results st' h
  rw [List.nil_append] at htail
  subst htail
  exact ⟨hlen, fun hlt => by simpa using hbud hlt, hids⟩

theorem c1_move_all_outcomes_witness :
    ([w_r] : List MoveResult).length ≤ ([w_m] : List FolderMatch).length ∧
    (([w_r] : List MoveResult).length < ([w_m] : List FolderMatch).length →
      ∃ k, w_cfg.max_moves = some k ∧
        k ≤ ([w_r] : List MoveResult).countP (fun r => op_statuses.contains r.status)) ∧
    List.Forall₂ (fun (r : MoveResult) (m : FolderMatch) => r.case_id = m.case_id)
      [w_r] (([w_m] : List FolderMatch).take ([w_r] : List MoveResult).length) :=
  c1_move_all_outcomes w_cfg w_st [w_m] [w_r] w_st2 (by rfl)

/-- C2: the Move Engine evaluates its short-circuit checks strictly in the
order exclusion, resume, missing source, duplicate policy: an excluded
match yields SKIPPED_EXCLUDED regardless of the other conditions (in
particular when its source is also in the resume set); a non-excluded match
in the resume set yields SKIPPED_RESUME regardless of missing source or
duplicate flags; a non-excluded non-resumed match with a missing source
yields SKIPPED_MISSING regardless of duplicate flags; and only then does
the duplicate-skip policy yield SKIPPED_DUPLICATE. -/
theorem c2_check_precedence (cfg : MoverConfig) (st : MoverState) (m : FolderMatch) :
    ((matches_exclusion_pattern m.folder_name cfg.exclude_patterns).isSome = true →
      status_of (FolderMover.move_folder cfg st m) = some .skipped_excluded) ∧
    (matches_exclusion_pattern m.folder_name cfg.exclude_patterns = none →
      cfg.already_moved_paths.contains m.source_path = true →
      status_of (FolderMover.move_folder cfg st m) = some .skipped_resume) ∧
    (matches_exclusion_pattern m.folder_name cfg.exclude_patterns = none →
      cfg.already_moved_paths.contains m.source_path = false →
      path_exists st.fs m.source_path = false →
      status_of (FolderMover.move_folder cfg st m) = some .skipped_missing) ∧
    (matches_exclusion_pattern m.folder_name cfg.exclude_patterns = none →
      cfg.already_moved_paths.contains m.source_path = false →
      path_exists st.fs m.source_path = true →
      cfg.duplicate_case_ids.contains m.case_id = true →
      cfg.duplicates_action = .skip →
      status_of (FolderMover.move_folder cfg st m) = some .skipped_duplicate) := by
  refine ⟨?_, ?_, ?_, ?_⟩
  · intro hsome
    rw [Option.isSome_iff_exists] at hsome
    obtain ⟨pat, hpat⟩ := hsome
    rw [FolderMover.move_folder_excluded cfg st m pat hpat]
    rfl
  · intro hx hres
    rw [FolderMover.move_folder_resume cfg st m hx hres]
    rfl
  · intro hx hres hmiss
    rw [FolderMover.move_folder_missing cfg st m hx hres hmiss]
    rfl
  · intro hx hres hmiss hdup hact
    rw [FolderMover.move_folder_dup_skip cfg st m hx hres hmiss hdup hact]
    rfl

theorem c2_check_precedence_witness :
    status_of (FolderMover.move_folder
      { dest_root := ["d"], dry_run := false, max_moves := none,
        exclude_patterns := ["temp"], on_dest_exists := .rename,
        already_moved_paths := [["s", "my_temp_folder"]],
        duplicates_action := .quarantine, duplicate_case_ids := [] }
      (initial_state [["s", "my_temp_folder"]])
      { case_id := "id", source_path := ["s", "my_temp_folder"],
        folder_name := "my_temp_folder" }) = some .skipped_excluded :=
  (c2_check_precedence
    { dest_root := ["d"], dry_run := false, max_moves := none,
      exclude_patterns := ["temp"], on_dest_exists := .rename,
      already_moved_paths := [["s", "my_temp_folder"]],
      duplicates_action := .quarantine, duplicate_case_ids := [] }
    (initial_state [["s", "my_temp_folder"]])
    { case_id := "id", source_path := ["s", "my_temp_folder"],
      folder_name := "my_temp_folder" }).1 (by decide)

/-- C9: the report label is overridden to MULTIPLE_MATCHES exactly when the
outcome's status is outside the quarantine group and the multiple-match
flag is set; quarantine statuses are never overridden; otherwise the label
is the fixed mapping of the status, with SUCCESS becoming MOVED,
SUCCESS_RENAMED becoming MOVED_RENAMED, DRY_RUN becoming FOUND_DRYRUN, and
QUARANTINED staying QUARANTINED. -/
theorem c9_report_labels : ∀ (s : MoveStatus) (mult : Bool),
    (write_move_result_status s mult = .MULTIPLE_MATCHES ↔
      (mult = true ∧ quarantine_statuses.contains s = false)) ∧
    ((quarantine_statuses.contains s = true ∨ mult = false) →
      write_move_result_status s mult = from_move_status s false) ∧
    from_move_status .success false = .MOVED ∧
    from_move_status .success_renamed false = .MOVED_RENAMED ∧
    from_move_status .dry_run false = .FOUND_DRYRUN ∧
    from_move_status .dry_run_renamed false = .FOUND_DRYRUN_RENAMED ∧
    from_move_status .quarantined false = .QUARANTINED ∧
    from_move_status .quarantined_renamed false = .QUARANTINED_RENAMED ∧
    from_move_status .dry_run_quarantine false = .FOUND_DRYRUN_QUARANTINE ∧
    from_move_status .dry_run_quarantine_renamed false = .FOUND_DRYRUN_QUARANTINE_RENAMED := by
  decide

theorem c9_report_labels_witness :
    write_move_result_status .success true = .MULTIPLE_MATCHES :=
  (c9_report_labels .success true).1.mpr ⟨rfl, rfl⟩


theorem move_folder_prim_spec (fs : FS) (src dest : Path) (dry : Bool)
    (hsrc : path_exists fs src = true) (hdest : path_exists fs dest = false) :
    (move_folder_prim fs src dest dry).1.dest_path = some dest ∧
    (move_folder_prim fs src dest dry).1.status = (if dry then .dry_run else .success) ∧
    (move_folder_prim fs src dest dry).2 = (if dry then fs else do_move fs src dest) ∧
    (move_folder_prim fs src dest dry).1.source_path = src := by
  rw [move_folder_prim]
  rw [if_neg (by rw [hsrc]; simp)]
  rw [if_neg (by rw [hdest]; exact Bool.false_ne_true)]
  cases dry <;> simp

theorem resolve_ok_shape (fs : FS) (dr : Path) (fn : String) (ex : List String)
    (p : Path) (h : resolve_destination fs dr fn ex = .ok p) :
    p = dr ++ [p.getLastD ""] ∧ path_exists fs p = false ∧
      ex.contains (p.getLastD "") = false := by
  obtain ⟨k, -, hfree, -, hp⟩ := (resolve_destination_ok_iff fs dr fn ex p).mp h
  subst hp
  rw [List.getLastD_concat]
  simp only [name_free, Bool.and_eq_true, Bool.not_eq_true'] at hfree
  exact ⟨rfl, hfree.1, hfree.2⟩

/-- C10: `resolve_destination` never mutates the claimed-name set passed to
it (the state-passing form returns the set unchanged), and reserving the
returned path's basename is performed only by the calling engine: after a
`FolderMover.move_folder` step the claimed sets are either untouched (no
resolution happened), or extended exactly by the basename of the returned
destination, in the main claimed set for a main-branch move and in the
per-identifier quarantine claimed set for a quarantine move. -/
theorem c10_resolver_never_mutates_claimed :
    (∀ (fs : FS) (dr : Path) (fn : String) (ex : List String) (p : Path)
      (ex2 : List String),
      resolve_destination_st fs dr fn ex = .ok (p, ex2) → ex2 = ex) ∧
    (∀ (cfg : MoverConfig) (st : MoverState) (m : FolderMatch) (r : MoveResult)
      (st' : MoverState),
      FolderMover.move_folder cfg st m = .ok (r, st') →
      (st'.claimed_names = st.claimed_names ∧
        st'.quarantine_claimed = st.quarantine_claimed) ∨
      (∃ b, r.dest_path = some (cfg.dest_root ++ [b]) ∧
        st'.claimed_names = set_add st.claimed_names b ∧
        st'.quarantine_claimed = st.quarantine_claimed) ∨
      (∃ b, r.dest_path = some (cfg.dest_root ++ [DUPLICATES_FOLDER, m.case_id, b]) ∧
        st'.claimed_names = st.claimed_names ∧
        st'.quarantine_claimed = qset st.quarantine_claimed m.case_id
          (set_add (qget st.quarantine_claimed m.case_id) b))) := by
  constructor
  · intro fs dr fn ex p ex2 h
    rw [resolve_destination_st] at h
    cases hr : resolve_destination fs dr fn ex with
    | error e => rw [hr] at h; exact absurd h (by simp [Except.map])
    | ok q =>
      rw [hr] at h
      simp only [Except.map, Except.ok.injEq, Prod.mk.injEq] at h
      exact h.2.symm
  · intro cfg st m r st' h
    cases hx : matches_exclusion_pattern m.folder_name cfg.exclude_patterns with
    | some pat =>
      rw [FolderMover.move_folder_excluded cfg st m pat hx] at h
      simp only [Except.ok.injEq, Prod.mk.injEq] at h
      exact Or.inl ⟨by rw [← h.2], by rw [← h.2]⟩
    | none =>
      cases hres : cfg.already_moved_paths.contains m.source_path with
      | true =>
        rw [FolderMover.move_folder_resume cfg st m hx hres] at h
        simp only [Except.ok.injEq, Prod.mk.injEq] at h
        exact Or.inl ⟨by rw [← h.2], by rw [← h.2]⟩
      | false =>
        cases hmiss : path_exists st.fs m.source_path with
        | false =>
          rw [FolderMover.move_folder_missing cfg st m hx hres hmiss] at h
          simp only [Except.ok.injEq, Prod.mk.injEq] at h
          exact Or.inl ⟨by rw [← h.2], by rw [← h.2]⟩
        | true =>
          have hmain : ∀ (_ : (cfg.duplicate_case_ids.contains m.case_id &&
              (cfg.duplicates_action == DuplicatesAction.skip)) = false)
              (_ : (cfg.duplicate_case_ids.contains m.case_id &&
              (cfg.duplicates_action == DuplicatesAction.quarantine)) = false),
              (st'.claimed_names = st.claimed_names ∧
                st'.quarantine_claimed = st.quarantine_claimed) ∨
              (∃ b, r.dest_path = some (cfg.dest_root ++ [b]) ∧
                st'.claimed_names = set_add st.claimed_names b ∧
                st'.quarantine_claimed = st.quarantine_claimed) ∨
              (∃ b, r.dest_path = some (cfg.dest_root ++
                  [DUPLICATES_FOLDER, m.case_id, b]) ∧
                st'.claimed_names = st.claimed_names ∧
                st'.quarantine_claimed = qset st.quarantine_claimed m.case_id
                  (set_add (qget st.quarantine_claimed m.case_id) b)) := by
            intro hnq hnq2
            cases hdesc : ((path_exists st.fs (cfg.dest_root ++ [m.folder_name]) ||
                st.claimed_names.contains m.folder_name) &&
                (cfg.on_dest_exists == DestExistsBehavior.skip)) with
            | true =>
              rw [Bool.and_eq_true] at hdesc
              have hsk : cfg.on_dest_exists = .skip := by
                have h2 := hdesc.2
                cases hcs : cfg.on_dest_exists
                · rw [hcs] at h2; exact absurd h2 (by decide)
                · rfl
              rw [FolderMover.move_folder_skip_exists cfg st m hx hres hmiss hnq hnq2
                hdesc.1 hsk] at h
              simp only [Except.ok.injEq, Prod.mk.injEq] at h
              exact Or.inl ⟨by rw [← h.2], by rw [← h.2]⟩
            | false =>
              cases hsolve : resolve_destination st.fs cfg.dest_root m.folder_name
                  st.claimed_names with
              | error e =>
                rw [FolderMover.move_folder_main_err cfg st m e hx hres hmiss hnq hnq2
                  hdesc hsolve] at h
                exact absurd h (by simp)
              | ok dp =>
                rw [FolderMover.move_folder_main_resolved cfg st m dp hx hres hmiss hnq
                  hnq2 hdesc hsolve] at h
                obtain ⟨hshape, hfresh, -⟩ := resolve_ok_shape st.fs cfg.dest_root
                  m.folder_name st.claimed_names dp hsolve
                obtain ⟨hdp, -, -, -⟩ := move_folder_prim_spec st.fs m.source_path dp
                  cfg.dry_run hmiss hfresh
                simp only [Except.ok.injEq, Prod.mk.injEq] at h
                refine Or.inr (Or.inl ⟨dp.getLastD "", ?_, ?_, ?_⟩)
                · rw [← h.1]
                  show (move_folder_prim st.fs m.source_path dp cfg.dry_run).1.dest_path = _
                  rw [hdp, ← hshape]
                · rw [← h.2]
                · rw [← h.2]
          cases hdup : cfg.duplicate_case_ids.contains m.case_id with
          | false => exact hmain (by rw [hdup]; rfl) (by rw [hdup]; rfl)
          | true =>
            cases hact : cfg.duplicates_action with
            | skip =>
              rw [FolderMover.move_folder_dup_skip cfg st m hx hres hmiss hdup hact] at h
              simp only [Except.ok.injEq, Prod.mk.injEq] at h
              exact Or.inl ⟨by rw [← h.2], by rw [← h.2]⟩
            | move_all =>
              exact hmain (by rw [hdup, hact]; rfl) (by rw [hdup, hact]; rfl)
            | quarantine =>
              rw [FolderMover.move_folder_to_quarantine cfg st m hx hres hmiss hdup
                hact] at h
              cases hsolve : resolve_destination st.fs
                  (cfg.dest_root ++ [DUPLICATES_FOLDER, m.case_id]) m.folder_name
                  (qget st.quarantine_claimed m.case_id) with
              | error e =>
                rw [FolderMover.mtq_err cfg st m e
                  (FolderMover.rqd_err cfg st m.case_id m.folder_name e hsolve)] at h
                exact absurd h (by simp)
              | ok dp =>
                rw [FolderMover.mtq_ok cfg st m dp _
                  (FolderMover.rqd_ok cfg st m.case_id m.folder_name dp hsolve)] at h
                obtain ⟨hshape, hfresh, -⟩ := resolve_ok_shape st.fs
                  (cfg.dest_root ++ [DUPLICATES_FOLDER, m.case_id]) m.folder_name
                  (qget st.quarantine_claimed m.case_id) dp hsolve
                obtain ⟨hdp, -, -, -⟩ := move_folder_prim_spec st.fs m.source_path dp
                  cfg.dry_run hmiss hfresh
                simp only [Except.ok.injEq, Prod.mk.injEq] at h
                refine Or.inr (Or.inr ⟨dp.getLastD "", ?_, ?_, ?_⟩)
                · have hshape2 : dp = cfg.dest_root ++
                      [DUPLICATES_FOLDER, m.case_id, dp.getLastD ""] :=
                    hshape.trans (by simp)
                  rw [← h.1]
                  show (move_folder_prim st.fs m.source_path dp cfg.dry_run).1.dest_path = _
                  rw [hdp]
                  exact congrArg some hshape2
                · rw [← h.2]
                · rw [← h.2]


theorem c10_resolver_never_mutates_claimed_witness :
    (["a"] : List String) = ["a"] ∧
    ((w_st2.claimed_names = w_st.claimed_names ∧
        w_st2.quarantine_claimed = w_st.quarantine_claimed) ∨
      (∃ b, w_r.dest_path = some (w_cfg.dest_root ++ [b]) ∧
        w_st2.claimed_names = set_add w_st.claimed_names b ∧
        w_st2.quarantine_claimed = w_st.quarantine_claimed) ∨
      (∃ b, w_r.dest_path = some (w_cfg.dest_root ++ [DUPLICATES_FOLDER, w_m.case_id, b]) ∧
        w_st2.claimed_names = w_st.claimed_names ∧
        w_st2.quarantine_claimed = qset w_st.quarantine_claimed w_m.case_id
          (set_add (qget w_st.quarantine_claimed w_m.case_id) b))) :=
  ⟨c10_resolver_never_mutates_claimed.1 [] [] "x" ["a"] ["x"] ["a"] (by rfl),
   c10_resolver_never_mutates_claimed.2 w_cfg w_st w_m w_r w_st2 (by rfl)⟩


theorem c8_counterexample :
    statuses_of (FolderMover.move_all c8cfgL (initial_state c8fs0) c8ms) =
      [.success, .skipped_missing] ∧
    statuses_of (FolderMover.move_all c8cfgD (initial_state c8fs0) c8ms) =
      [.dry_run, .dry_run_renamed] ∧
    ¬ paired_runs (FolderMover.move_all c8cfgL (initial_state c8fs0) c8ms)
        (FolderMover.move_all c8cfgD (initial_state c8fs0) c8ms) c8fs0 := by
  refine ⟨rfl, rfl, ?_⟩
  intro h
  have hfa := h.1
  rcases hfa with _ | ⟨hp1, htail⟩
  rcases htail with _ | ⟨hp2, -⟩
  exact absurd hp2 (by decide)


theorem pfx_iff (p q : Path) : p.isPrefixOf q = true ↔ ∃ t, p ++ t = q := by
  rw [ List.isPrefixOf_iff_prefix]
  exact Iff.rfl

theorem pfx_append_self (p t : Path) : p.isPrefixOf (p ++ t) = true :=
  (pfx_iff p (p ++ t)).mpr ⟨t, rfl⟩

theorem pfx_trans {p q r : Path} (h1 : p.isPrefixOf q = true) (h2 : q.isPrefixOf r = true) :
    p.isPrefixOf r = true := by
  obtain ⟨a, ha⟩ := (pfx_iff p q).mp h1
  obtain ⟨b, hb⟩ := (pfx_iff q r).mp h2
  exact (pfx_iff p r).mpr ⟨a ++ b, by rw [← List.append_assoc, ha, hb]⟩

theorem pfx_dropLast (p : Path) : p.dropLast.isPrefixOf p = true := by
  rw [ List.isPrefixOf_iff_prefix]
  exact List.dropLast_prefix p

theorem pfx_comparable {p q r : Path} (h1 : p.isPrefixOf r = true)
    (h2 : q.isPrefixOf r = true) :
    p.isPrefixOf q = true ∨ q.isPrefixOf p = true := by
  simp only [ List.isPrefixOf_iff_prefix] at h1 h2 ⊢
  exact List.prefix_or_prefix_of_prefix h1 h2

theorem pfx_cancel (l a b : Path) : (l ++ a).isPrefixOf (l ++ b) = a.isPrefixOf b := by
  rw [Bool.eq_iff_iff]
  simp only [ List.isPrefixOf_iff_prefix]
  exact List.prefix_append_right_inj l

theorem pfx_nil_left (q : Path) : ([] : Path).isPrefixOf q = true := by
  rw [ List.isPrefixOf_iff_prefix]
  exact ⟨q, List.nil_append q⟩

theorem pfx_cons_cons (a b : String) (p q : Path) :
    (a :: p).isPrefixOf (b :: q) = ((a == b) && p.isPrefixOf q) := rfl

theorem pfx_cons_nil (a : String) (p : Path) : (a :: p).isPrefixOf [] = false := rfl

theorem pfx_unrel_ext {p q : Path} (t : Path) (h1 : p.isPrefixOf q = false)
    (h2 : q.isPrefixOf p = false) :
    p.isPrefixOf (q ++ t) = false ∧ (q ++ t).isPrefixOf p = false := by
  constructor
  · cases hx : p.isPrefixOf (q ++ t)
    · rfl
    · exfalso
      rcases pfx_comparable hx (pfx_append_self q t) with h | h
      · rw [h] at h1; exact absurd h1 (by simp)
      · rw [h] at h2; exact absurd h2 (by simp)
  · cases hx : (q ++ t).isPrefixOf p
    · rfl
    · exfalso
      have h3 := pfx_trans (pfx_append_self q t) hx
      rw [h3] at h2
      exact absurd h2 (by simp)

theorem any_congr_on {α : Type} (l : List α) (f g : α → Bool) (h : ∀ x ∈ l, f x = g x) :
    l.any f = l.any g := by
  induction l with
  | nil => rfl
  | cons a l ih =>
    simp only [List.any_cons]
    rw [h a (by simp), ih (fun x hx => h x (by simp [hx]))]

theorem pe_do_move (fs : FS) (src dst p : Path) :
    path_exists (do_move fs src dst) p =
      (p.isPrefixOf src.dropLast ||
        fs.any (fun q => p.isPrefixOf
          (if src.isPrefixOf q then dst ++ q.drop src.length else q))) := by
  rw [path_exists, do_move, List.any_cons, List.any_map]
  rfl

theorem pe_do_move_unrel (fs : FS) (src dst p : Path)
    (hps : p.isPrefixOf src = false) (hsp : src.isPrefixOf p = false)
    (hpd : p.isPrefixOf dst = false) (hdp : dst.isPrefixOf p = false) :
    path_exists (do_move fs src dst) p = path_exists fs p := by
  rw [pe_do_move]
  have h1 : p.isPrefixOf src.dropLast = false := by
    cases hx : p.isPrefixOf src.dropLast
    · rfl
    · have h2 := pfx_trans hx (pfx_dropLast src)
      rw [h2] at hps
      exact absurd hps (by simp)
  rw [h1, Bool.false_or, path_exists]
  apply any_congr_on
  intro q hq
  cases hsq : src.isPrefixOf q
  · simp only [hsq, Bool.false_eq_true, if_false]
  · obtain ⟨t, ht⟩ := (pfx_iff src q).mp hsq
    have hdrop : q.drop src.length = t := by rw [← ht]; exact List.drop_left src t
    simp only [hsq, if_true, hdrop]
    have hL : p.isPrefixOf (dst ++ t) = false := (pfx_unrel_ext t hpd hdp).1
    have hR : p.isPrefixOf q = false := by
      cases hx : p.isPrefixOf q
      · rfl
      · exfalso
        rcases pfx_comparable hx hsq with h | h
        · rw [h] at hps; exact absurd hps (by simp)
        · rw [h] at hsp; exact absurd hsp (by simp)
    rw [hL, hR]

theorem pe_do_move_dst (fs : FS) (src dst : Path) (hsrc : path_exists fs src = true) :
    path_exists (do_move fs src dst) dst = true := by
  rw [pe_do_move]
  obtain ⟨q, hq, hsq⟩ := List.any_eq_true.mp hsrc
  have h2 : fs.any (fun q => dst.isPrefixOf
      (if src.isPrefixOf q then dst ++ q.drop src.length else q)) = true := by
    refine List.any_eq_true.mpr ⟨q, hq, ?_⟩
    simp only [hsq, if_true]
    exact pfx_append_self dst _
  rw [h2, Bool.or_true]

theorem free_of_or_eq {a b c : Bool} (h : (a || c) = (b || c)) : (!a && !c) = (!b && !c) := by
  revert h; cases a <;> cases b <;> cases c <;> decide

theorem name_free_congr {fsL fs0 : FS} {dr : Path} {ex : List String} {n : String}
    (h : (path_exists fsL (dr ++ [n]) || ex.contains n) =
         (path_exists fs0 (dr ++ [n]) || ex.contains n)) :
    name_free fsL dr ex n = name_free fs0 dr ex n := by
  rw [name_free, name_free]
  exact free_of_or_eq h

theorem find_suffix_congr (fsL fs0 : FS) (dr : Path) (fn : String) (ex : List String)
    (hf : ∀ k, name_free fsL dr ex (cand_name fn k) = name_free fs0 dr ex (cand_name fn k)) :
    ∀ (fuel c : Nat), c ≠ 0 →
      find_suffix fsL dr fn ex c fuel = find_suffix fs0 dr fn ex c fuel := by
  intro fuel
  induction fuel with
  | zero =>
    intro c hc
    rw [find_suffix, find_suffix, try_candidate_eq fsL dr fn ex c hc,
      try_candidate_eq fs0 dr fn ex c hc, hf c]
  | succ fuel ih =>
    intro c hc
    rw [find_suffix, find_suffix, try_candidate_eq fsL dr fn ex c hc,
      try_candidate_eq fs0 dr fn ex c hc, hf c]
    cases hfree : name_free fs0 dr ex (cand_name fn c)
    · simp only [hfree, Bool.false_eq_true, if_false]
      exact ih (c + 1) (Nat.succ_ne_zero c)
    · simp only [hfree, if_true]

theorem resolve_destination_congr (fsL fs0 : FS) (dr : Path) (fn : String)
    (ex : List String)
    (hf : ∀ k, name_free fsL dr ex (cand_name fn k) = name_free fs0 dr ex (cand_name fn k)) :
    resolve_destination fsL dr fn ex = resolve_destination fs0 dr fn ex := by
  rw [resolve_destination, resolve_destination]
  have hhL : (!path_exists fsL (dr ++ [fn]) && !ex.contains fn) = name_free fsL dr ex fn := rfl
  have hh0 : (!path_exists fs0 (dr ++ [fn]) && !ex.contains fn) = name_free fs0 dr ex fn := rfl
  have h0 := hf 0
  rw [cand_name_zero] at h0
  rw [hhL, hh0, h0]
  cases hfree : name_free fs0 dr ex fn
  · simp only [hfree, Bool.false_eq_true, if_false]
    exact find_suffix_congr fsL fs0 dr fn ex hf 9999 1 (by omega)
  · simp only [hfree, if_true]

theorem set_add_contains_self (l : List String) (x : String) :
    (set_add l x).contains x = true := by
  rw [set_add]
  cases h : l.contains x
  · simp only [h, Bool.false_eq_true, if_false]
    simp
  · simp only [h, if_true]

theorem set_add_contains_ne (l : List String) (x y : String) (h : y ≠ x) :
    (set_add l x).contains y = l.contains y := by
  rw [set_add]
  cases hc : l.contains x
  · simp only [hc, Bool.false_eq_true, if_false]
    simp [h]
  · simp only [hc, if_true]

theorem qget_eq_dict_get (q : List (String × List String)) (cid : String) :
    qget q cid = dict_get q cid := rfl

theorem qget_map_set (cid : String) (v : List String) :
    ∀ q : List (String × List String), q.any (fun e => e.1 == cid) = true →
      qget (q.map (fun e => if e.1 == cid then (e.1, v) else e)) cid = v := by
  intro q
  induction q with
  | nil => intro h; exact absurd h (by simp)
  | cons e q ih =>
    intro h
    obtain ⟨k0, v0⟩ := e
    simp only [List.map_cons]
    by_cases hk : (k0 == cid) = true
    · have hk0 : k0 = cid := by simpa using hk
      subst hk0
      simp [qget, List.find?_cons]
    · have hkf : (k0 == cid) = false := by simpa using hk
      have hq : q.any (fun e => e.1 == cid) = true := by simpa [hkf] using h
      rw [show (if ((k0, v0).1 == cid) = true then ((k0, v0).1, v) else (k0, v0)) = (k0, v0)
        from by simp [hkf]]
      rw [qget_eq_dict_get, dict_get_cons_beq_false hkf, ← qget_eq_dict_get]
      exact ih hq

theorem qget_cons_beq_false {e : String × List String} {q : List (String × List String)}
    {cid : String} (h : (e.1 == cid) = false) : qget (e :: q) cid = qget q cid :=
  dict_get_cons_beq_false h

theorem qget_cons_beq_true {e : String × List String} {q : List (String × List String)}
    {cid : String} (h : (e.1 == cid) = true) : qget (e :: q) cid = e.2 :=
  dict_get_cons_beq_true h

theorem qget_map_set_ne (cid cid' : String) (v : List String) (h : cid' ≠ cid) :
    ∀ q : List (String × List String),
      qget (q.map (fun e => if e.1 == cid then (e.1, v) else e)) cid' = qget q cid' := by
  intro q
  induction q with
  | nil => rfl
  | cons e q ih =>
    obtain ⟨k0, v0⟩ := e
    simp only [List.map_cons]
    by_cases hk : (k0 == cid) = true
    · have hk0 : k0 = cid := by simpa using hk
      rw [show (if ((k0, v0).1 == cid) = true then ((k0, v0).1, v) else (k0, v0)) = (k0, v)
        from by simp [hk]]
      have hne : (k0 == cid') = false := by
        rw [beq_eq_false_iff_ne, hk0]
        exact fun hc => h hc.symm
      rw [qget_cons_beq_false hne, qget_cons_beq_false hne]
      exact ih
    · have hkf : (k0 == cid) = false := by simpa using hk
      rw [show (if ((k0, v0).1 == cid) = true then ((k0, v0).1, v) else (k0, v0)) = (k0, v0)
        from by simp [hkf]]
      cases hk' : (k0 == cid')
      · rw [qget_cons_beq_false hk', qget_cons_beq_false hk']
        exact ih
      · rw [qget_cons_beq_true hk', qget_cons_beq_true hk']

theorem qget_append_one (q : List (String × List String)) (cid : String) (v : List String)
    (hnone : q.find? (fun e => e.1 == cid) = none) :
    qget (q ++ [(cid, v)]) cid = v := by
  rw [qget, List.find?_append, hnone]
  simp [List.find?_cons]

theorem qget_append_one_ne (q : List (String × List String)) (cid cid' : String)
    (v : List String) (h : cid' ≠ cid) :
    qget (q ++ [(cid, v)]) cid' = qget q cid' := by
  rw [qget, qget, List.find?_append]
  cases hf : q.find? (fun e => e.1 == cid')
  · have h2 : [(cid, v)].find? (fun e => e.1 == cid') = none := by
      simp [List.find?_cons, beq_eq_false_iff_ne.mpr (fun hc => h hc.symm)]
    simp [hf, h2]
  · simp [hf]

theorem qget_qset_self (q : List (String × List String)) (cid : String) (v : List String) :
    qget (qset q cid v) cid = v := by
  rw [qset]
  cases hany : q.any (fun e => e.1 == cid)
  · simp only [hany, Bool.false_eq_true, if_false]
    refine qget_append_one q cid v ?_
    rw [List.find?_eq_none]
    intro x hx hc
    have h2 : q.any (fun e => e.1 == cid) = true :=
      List.any_of_mem hx (p := fun e => e.1 == cid) hc
    rw [hany] at h2
    exact absurd h2 (by simp)
  · simp only [hany, if_true]
    exact qget_map_set cid v q hany

theorem qget_qset_ne (q : List (String × List String)) (cid cid' : String)
    (v : List String) (h : cid' ≠ cid) :
    qget (qset q cid v) cid' = qget q cid' := by
  rw [qset]
  cases hany : q.any (fun e => e.1 == cid)
  · simp only [hany, Bool.false_eq_true, if_false]
    exact qget_append_one_ne q cid cid' v h
  · simp only [hany, if_true]
    exact qget_map_set_ne cid cid' v h q


theorem path_unrelated_elim {p q : Path} (h : path_unrelated p q = true) :
    p.isPrefixOf q = false ∧ q.isPrefixOf p = false := by
  simp only [path_unrelated, Bool.and_eq_true, Bool.not_eq_true'] at h
  exact h

theorem path_unrelated_symm (p q : Path) : path_unrelated p q = path_unrelated q p := by
  rw [path_unrelated, path_unrelated, Bool.and_comm]

theorem cand_name_ne_dup {fn : String} (h : avoids_quarantine_name fn = true) :
    ∀ k, cand_name fn k ≠ DUPLICATES_FOLDER := by
  simp only [avoids_quarantine_name, Bool.and_eq_true, bne_iff_ne, Bool.not_eq_true'] at h
  intro k
  match k with
  | 0 => rw [cand_name_zero]; exact h.1
  | k' + 1 =>
    rw [cand_name_succ]
    intro hc
    have hd : ((fn ++ "_") ++ toString (k' + 1)).data = DUPLICATES_FOLDER.data := by
      rw [hc]
    rw [String.data_append] at hd
    have hpfx : (fn ++ "_").data.isPrefixOf DUPLICATES_FOLDER.data = true := by
      rw [ List.isPrefixOf_iff_prefix]
      exact ⟨(toString (k' + 1)).data, hd⟩
    rw [h.2] at hpfx
    exact absurd hpfx (by simp)

theorem resolve_ok_last_ne_dup {fs : FS} {dr : Path} {fn : String} {ex : List String}
    {dp : Path} (hsafe : avoids_quarantine_name fn = true)
    (h : resolve_destination fs dr fn ex = .ok dp) :
    dp.getLastD "" ≠ DUPLICATES_FOLDER := by
  obtain ⟨k, -, -, -, hp⟩ := (resolve_destination_ok_iff fs dr fn ex dp).mp h
  subst hp
  rw [List.getLastD_concat]
  exact cand_name_ne_dup hsafe k

theorem qpath_eq (dr : Path) (cid x : String) :
    (dr ++ [DUPLICATES_FOLDER, cid]) ++ [x] = dr ++ [DUPLICATES_FOLDER, cid, x] := by
  simp

theorem op_statuses_to_dry (s : MoveStatus) :
    op_statuses.contains (to_dry_status s) = op_statuses.contains s := by
  cases s <;> rfl

theorem move_folder_prim_eq (fs : FS) (src dest : Path) (dry : Bool)
    (hsrc : path_exists fs src = true) (hdest : path_exists fs dest = false) :
    move_folder_prim fs src dest dry =
      (if dry then
        ({ case_id := "", source_path := src, dest_path := some dest,
           status := .dry_run, message := "Would move to " ++ path_str dest }, fs)
       else
        ({ case_id := "", source_path := src, dest_path := some dest,
           status := .success, message := "Moved successfully" }, do_move fs src dest)) := by
  rw [move_folder_prim]
  rw [if_neg (by rw [hsrc]; simp)]
  rw [if_neg (by rw [hdest]; exact Bool.false_ne_true)]


namespace FolderMover

theorem move_folder_main_live (cfg : MoverConfig) (st : MoverState) (m : FolderMatch)
    (dp : Path)
    (hx : matches_exclusion_pattern m.folder_name cfg.exclude_patterns = none)
    (hres : cfg.already_moved_paths.contains m.source_path = false)
    (hmiss : path_exists st.fs m.source_path = true)
    (hnq : (cfg.duplicate_case_ids.contains m.case_id &&
      (cfg.duplicates_action == .skip)) = false)
    (hnq2 : (cfg.duplicate_case_ids.contains m.case_id &&
      (cfg.duplicates_action == .quarantine)) = false)
    (hde : ((path_exists st.fs (cfg.dest_root ++ [m.folder_name]) ||
      st.claimed_names.contains m.folder_name) && (cfg.on_dest_exists == .skip)) = false)
    (hsolve : resolve_destination st.fs cfg.dest_root m.folder_name st.claimed_names =
      .ok dp)
    (hdry : cfg.dry_run = false) :
    move_folder cfg st m = .ok (
      { case_id := m.case_id, source_path := m.source_path, dest_path := some dp,
        status := if dp.getLastD "" == m.folder_name then .success else .success_renamed,
        message := if dp.getLastD "" == m.folder_name then "Moved successfully"
          else "Moved successfully (renamed from " ++ m.folder_name ++ " to " ++
            dp.getLastD "" ++ ")" },
      { fs := do_move st.fs m.source_path dp,
        claimed_names := set_add st.claimed_names (dp.getLastD ""),
        quarantine_claimed := st.quarantine_claimed,
        stats := bump_stats st.stats
          (if dp.getLastD "" == m.folder_name then .success else .success_renamed) }) := by
  have hfresh : path_exists st.fs dp = false :=
    (resolve_ok_shape st.fs cfg.dest_root m.folder_name st.claimed_names dp hsolve).2.1
  rw [move_folder_main_resolved cfg st m dp hx hres hmiss hnq hnq2 hde hsolve]
  rw [move_folder_prim_eq st.fs m.source_path dp cfg.dry_run hmiss hfresh, hdry]
  have hgl : (List.getLast? dp).getD "" = dp.getLastD "" := by
    simp [List.getLastD_eq_getLast?]
  cases hwr : (dp.getLastD "" == m.folder_name)
  · have hw : ¬ (List.getLast? dp).getD "" = m.folder_name := by
      rw [hgl]; exact beq_eq_false_iff_ne.mp hwr
    simp [hwr, hw]
  · have hw : (List.getLast? dp).getD "" = m.folder_name := by
      rw [hgl]; exact eq_of_beq hwr
    simp [hwr, hw]

theorem move_folder_main_dry (cfg : MoverConfig) (st : MoverState) (m : FolderMatch)
    (dp : Path)
    (hx : matches_exclusion_pattern m.folder_name cfg.exclude_patterns = none)
    (hres : cfg.already_moved_paths.contains m.source_path = false)
    (hmiss : path_exists st.fs m.source_path = true)
    (hnq : (cfg.duplicate_case_ids.contains m.case_id &&
      (cfg.duplicates_action == .skip)) = false)
    (hnq2 : (cfg.duplicate_case_ids.contains m.case_id &&
      (cfg.duplicates_action == .quarantine)) = false)
    (hde : ((path_exists st.fs (cfg.dest_root ++ [m.folder_name]) ||
      st.claimed_names.contains m.folder_name) && (cfg.on_dest_exists == .skip)) = false)
    (hsolve : resolve_destination st.fs cfg.dest_root m.folder_name st.claimed_names =
      .ok dp)
    (hdry : cfg.dry_run = true) :
    move_folder cfg st m = .ok (
      { case_id := m.case_id, source_path := m.source_path, dest_path := some dp,
        status := if dp.getLastD "" == m.folder_name then .dry_run else .dry_run_renamed,
        message := if dp.getLastD "" == m.folder_name then "Would move to " ++ path_str dp
          else "Would move to " ++ path_str dp ++ " (renamed from " ++ m.folder_name ++
            " to " ++ dp.getLastD "" ++ ")" },
      { fs := st.fs,
        claimed_names := set_add st.claimed_names (dp.getLastD ""),
        quarantine_claimed := st.quarantine_claimed,
        stats := bump_stats st.stats
          (if dp.getLastD "" == m.folder_name then .dry_run else .dry_run_renamed) }) := by
  have hfresh : path_exists st.fs dp = false :=
    (resolve_ok_shape st.fs cfg.dest_root m.folder_name st.claimed_names dp hsolve).2.1
  rw [move_folder_main_resolved cfg st m dp hx hres hmiss hnq hnq2 hde hsolve]
  rw [move_folder_prim_eq st.fs m.source_path dp cfg.dry_run hmiss hfresh, hdry]
  have hgl : (List.getLast? dp).getD "" = dp.getLastD "" := by
    simp [List.getLastD_eq_getLast?]
  cases hwr : (dp.getLastD "" == m.folder_name)
  · have hw : ¬ (List.getLast? dp).getD "" = m.folder_name := by
      rw [hgl]; exact beq_eq_false_iff_ne.mp hwr
    simp [hwr, hw]
  · have hw : (List.getLast? dp).getD "" = m.folder_name := by
      rw [hgl]; exact eq_of_beq hwr
    simp [hwr, hw]

theorem move_folder_quar_live (cfg : MoverConfig) (st : MoverState) (m : FolderMatch)
    (dp : Path)
    (hx : matches_exclusion_pattern m.folder_name cfg.exclude_patterns = none)
    (hres : cfg.already_moved_paths.contains m.source_path = false)
    (hmiss : path_exists st.fs m.source_path = true)
    (hdup : cfg.duplicate_case_ids.contains m.case_id = true)
    (hact : cfg.duplicates_action = .quarantine)
    (hsolve : resolve_destination st.fs (cfg.dest_root ++ [DUPLICATES_FOLDER, m.case_id])
      m.folder_name (qget st.quarantine_claimed m.case_id) = .ok dp)
    (hdry : cfg.dry_run = false) :
    move_folder cfg st m = .ok (
      { case_id := m.case_id, source_path := m.source_path, dest_path := some dp,
        status := if dp.getLastD "" == m.folder_name then .quarantined
          else .quarantined_renamed,
        message := if dp.getLastD "" == m.folder_name then
            "Quarantined duplicate to " ++ path_str dp
          else "Quarantined duplicate (renamed from " ++ m.folder_name ++ " to " ++
            dp.getLastD "" ++ ")" },
      { fs := do_move st.fs m.source_path dp,
        claimed_names := st.claimed_names,
        quarantine_claimed := qset st.quarantine_claimed m.case_id
          (set_add (qget st.quarantine_claimed m.case_id) (dp.getLastD "")),
        stats := bump_stats st.stats
          (if dp.getLastD "" == m.folder_name then .quarantined
            else .quarantined_renamed) }) := by
  have hfresh : path_exists st.fs dp = false :=
    (resolve_ok_shape st.fs (cfg.dest_root ++ [DUPLICATES_FOLDER, m.case_id])
      m.folder_name (qget st.quarantine_claimed m.case_id) dp hsolve).2.1
  rw [move_folder_to_quarantine cfg st m hx hres hmiss hdup hact]
  rw [mtq_ok cfg st m dp _ (rqd_ok cfg st m.case_id m.folder_name dp hsolve)]
  have hgl : (List.getLast? dp).getD "" = dp.getLastD "" := by
    simp [List.getLastD_eq_getLast?]
  cases hwr : (dp.getLastD "" == m.folder_name)
  · have hw : ¬ (List.getLast? dp).getD "" = m.folder_name := by
      rw [hgl]; exact beq_eq_false_iff_ne.mp hwr
    simp [hwr, hw, move_folder_prim_eq st.fs m.source_path dp false hmiss hfresh, hdry]
  · have hw : (List.getLast? dp).getD "" = m.folder_name := by
      rw [hgl]; exact eq_of_beq hwr
    simp [hwr, hw, move_folder_prim_eq st.fs m.source_path dp false hmiss hfresh, hdry]

theorem move_folder_quar_dry (cfg : MoverConfig) (st : MoverState) (m : FolderMatch)
    (dp : Path)
    (hx : matches_exclusion_pattern m.folder_name cfg.exclude_patterns = none)
    (hres : cfg.already_moved_paths.contains m.source_path = false)
    (hmiss : path_exists st.fs m.source_path = true)
    (hdup : cfg.duplicate_case_ids.contains m.case_id = true)
    (hact : cfg.duplicates_action = .quarantine)
    (hsolve : resolve_destination st.fs (cfg.dest_root ++ [DUPLICATES_FOLDER, m.case_id])
      m.folder_name (qget st.quarantine_claimed m.case_id) = .ok dp)
    (hdry : cfg.dry_run = true) :
    move_folder cfg st m = .ok (
      { case_id := m.case_id, source_path := m.source_path, dest_path := some dp,
        status := if dp.getLastD "" == m.folder_name then .dry_run_quarantine
          else .dry_run_quarantine_renamed,
        message := if dp.getLastD "" == m.folder_name then
            "Would quarantine duplicate to " ++ path_str dp
          else "Would quarantine to " ++ path_str dp ++ " (renamed from " ++
            m.folder_name ++ " to " ++ dp.getLastD "" ++ ")" },
      { fs := st.fs,
        claimed_names := st.claimed_names,
        quarantine_claimed := qset st.quarantine_claimed m.case_id
          (set_add (qget st.quarantine_claimed m.case_id) (dp.getLastD "")),
        stats := bump_stats st.stats
          (if dp.getLastD "" == m.folder_name then .dry_run_quarantine
            else .dry_run_quarantine_renamed) }) := by
  have hfresh : path_exists st.fs dp = false :=
    (resolve_ok_shape st.fs (cfg.dest_root ++ [DUPLICATES_FOLDER, m.case_id])
      m.folder_name (qget st.quarantine_claimed m.case_id) dp hsolve).2.1
  rw [move_folder_to_quarantine cfg st m hx hres hmiss hdup hact]
  rw [mtq_ok cfg st m dp _ (rqd_ok cfg st m.case_id m.folder_name dp hsolve)]
  have hgl : (List.getLast? dp).getD "" = dp.getLastD "" := by
    simp [List.getLastD_eq_getLast?]
  cases hwr : (dp.getLastD "" == m.folder_name)
  · have hw : ¬ (List.getLast? dp).getD "" = m.folder_name := by
      rw [hgl]; exact beq_eq_false_iff_ne.mp hwr
    simp [hwr, hw, move_folder_prim_eq st.fs m.source_path dp true hmiss hfresh, hdry]
  · have hw : (List.getLast? dp).getD "" = m.folder_name := by
      rw [hgl]; exact eq_of_beq hwr
    simp [hwr, hw, move_folder_prim_eq st.fs m.source_path dp true hmiss hfresh, hdry]

end FolderMover


namespace FolderMover

theorem move_folder_paired (cfg cfgD : MoverConfig) (fs0 : FS) (stL stD : MoverState)
    (m : FolderMatch)
    (hfdr : cfgD.dest_root = cfg.dest_root)
    (hfex : cfgD.exclude_patterns = cfg.exclude_patterns)
    (hfam : cfgD.already_moved_paths = cfg.already_moved_paths)
    (hfde : cfgD.on_dest_exists = cfg.on_dest_exists)
    (hfda : cfgD.duplicates_action = cfg.duplicates_action)
    (hfdc : cfgD.duplicate_case_ids = cfg.duplicate_case_ids)
    (hdryL : cfg.dry_run = false) (hdryD : cfgD.dry_run = true)
    (hfsD : stD.fs = fs0) (hcl : stD.claimed_names = stL.claimed_names)
    (hqc : stD.quarantine_claimed = stL.quarantine_claimed)
    (hinv : sync_inv cfg.dest_root fs0 stL.claimed_names stL.quarantine_claimed stL.fs)
    (hsrc : path_exists stL.fs m.source_path = path_exists fs0 m.source_path)
    (hun : path_unrelated m.source_path cfg.dest_root = true)
    (hsafe : avoids_quarantine_name m.folder_name = true) :
    (∀ e, move_folder cfg stL m = .error e → move_folder cfgD stD m = .error e) ∧
    (∀ r stL', move_folder cfg stL m = .ok (r, stL') →
      ∃ r' stD', move_folder cfgD stD m = .ok (r', stD') ∧
        paired_outcome r r' = true ∧
        stD'.fs = fs0 ∧ stD'.claimed_names = stL'.claimed_names ∧
        stD'.quarantine_claimed = stL'.quarantine_claimed ∧
        sync_inv cfg.dest_root fs0 stL'.claimed_names stL'.quarantine_claimed stL'.fs ∧
        (∀ p, path_unrelated p m.source_path = true →
          path_unrelated p cfg.dest_root = true →
          path_exists stL'.fs p = path_exists stL.fs p)) := by
  obtain ⟨hups, husp⟩ := path_unrelated_elim hun
  have hfn_ne : m.folder_name ≠ DUPLICATES_FOLDER := by
    have h0 := cand_name_ne_dup hsafe 0
    rwa [cand_name_zero] at h0
  cases hx : matches_exclusion_pattern m.folder_name cfg.exclude_patterns with
  | some pat =>
    have hxD : matches_exclusion_pattern m.folder_name cfgD.exclude_patterns = some pat := by
      rw [hfex]; exact hx
    constructor
    · intro e he
      rw [move_folder_excluded cfg stL m pat hx] at he
      exact absurd he (by simp)
    · intro r stL' hok
      rw [move_folder_excluded cfg stL m pat hx] at hok
      simp only [Except.ok.injEq, Prod.mk.injEq] at hok
      obtain ⟨hr, hst⟩ := hok
      refine ⟨_, _, move_folder_excluded cfgD stD m pat hxD, ?_, ?_, ?_, ?_, ?_, ?_⟩
      · rw [← hr]; simp [paired_outcome, to_dry_status]
      · exact hfsD
      · rw [← hst]; exact hcl
      · rw [← hst]; exact hqc
      · rw [← hst]; exact hinv
      · intro p hp1 hp2; rw [← hst]
  | none =>
    have hxD : matches_exclusion_pattern m.folder_name cfgD.exclude_patterns = none := by
      rw [hfex]; exact hx
    cases hrs : cfg.already_moved_paths.contains m.source_path with
    | true =>
      have hrsD : cfgD.already_moved_paths.contains m.source_path = true := by
        rw [hfam]; exact hrs
      constructor
      · intro e he
        rw [move_folder_resume cfg stL m hx hrs] at he
        exact absurd he (by simp)
      · intro r stL' hok
        rw [move_folder_resume cfg stL m hx hrs] at hok
        simp only [Except.ok.injEq, Prod.mk.injEq] at hok
        obtain ⟨hr, hst⟩ := hok
        refine ⟨_, _, move_folder_resume cfgD stD m hxD hrsD, ?_, ?_, ?_, ?_, ?_, ?_⟩
        · rw [← hr]; simp [paired_outcome, to_dry_status]
        · exact hfsD
        · rw [← hst]; exact hcl
        · rw [← hst]; exact hqc
        · rw [← hst]; exact hinv
        · intro p hp1 hp2; rw [← hst]
    | false =>
      have hrsD : cfgD.already_moved_paths.contains m.source_path = false := by
        rw [hfam]; exact hrs
      cases hmiss : path_exists stL.fs m.source_path with
      | false =>
        have hmissD : path_exists stD.fs m.source_path = false := by
          rw [hfsD, ← hsrc]; exact hmiss
        constructor
        · intro e he
          rw [move_folder_missing cfg stL m hx hrs hmiss] at he
          exact absurd he (by simp)
        · intro r stL' hok
          rw [move_folder_missing cfg stL m hx hrs hmiss] at hok
          simp only [Except.ok.injEq, Prod.mk.injEq] at hok
          obtain ⟨hr, hst⟩ := hok
          refine ⟨_, _, move_folder_missing cfgD stD m hxD hrsD hmissD, ?_, ?_, ?_, ?_, ?_, ?_⟩
          · rw [← hr]; simp [paired_outcome, to_dry_status]
          · exact hfsD
          · rw [← hst]; exact hcl
          · rw [← hst]; exact hqc
          · rw [← hst]; exact hinv
          · intro p hp1 hp2; rw [← hst]
      | true =>
        have hmissD : path_exists stD.fs m.source_path = true := by
          rw [hfsD, ← hsrc]; exact hmiss
        have hmain : ∀ (hnq : (cfg.duplicate_case_ids.contains m.case_id &&
            (cfg.duplicates_action == DuplicatesAction.skip)) = false)
            (hnq2 : (cfg.duplicate_case_ids.contains m.case_id &&
            (cfg.duplicates_action == DuplicatesAction.quarantine)) = false),
            (∀ e, move_folder cfg stL m = .error e → move_folder cfgD stD m = .error e) ∧
            (∀ r stL', move_folder cfg stL m = .ok (r, stL') →
              ∃ r' stD', move_folder cfgD stD m = .ok (r', stD') ∧
                paired_outcome r r' = true ∧
                stD'.fs = fs0 ∧ stD'.claimed_names = stL'.claimed_names ∧
                stD'.quarantine_claimed = stL'.quarantine_claimed ∧
                sync_inv cfg.dest_root fs0 stL'.claimed_names stL'.quarantine_claimed
                  stL'.fs ∧
                (∀ p, path_unrelated p m.source_path = true →
                  path_unrelated p cfg.dest_root = true →
                  path_exists stL'.fs p = path_exists stL.fs p)) := by
          intro hnq hnq2
          have hnqD : (cfgD.duplicate_case_ids.contains m.case_id &&
              (cfgD.duplicates_action == DuplicatesAction.skip)) = false := by
            rw [hfdc, hfda]; exact hnq
          have hnq2D : (cfgD.duplicate_case_ids.contains m.case_id &&
              (cfgD.duplicates_action == DuplicatesAction.quarantine)) = false := by
            rw [hfdc, hfda]; exact hnq2
          have hdeq : (path_exists stL.fs (cfg.dest_root ++ [m.folder_name]) ||
              stL.claimed_names.contains m.folder_name) =
              (path_exists fs0 (cfg.dest_root ++ [m.folder_name]) ||
              stL.claimed_names.contains m.folder_name) :=
            hinv.1 m.folder_name hfn_ne
          cases hdeB : ((path_exists stL.fs (cfg.dest_root ++ [m.folder_name]) ||
              stL.claimed_names.contains m.folder_name) &&
              (cfg.on_dest_exists == DestExistsBehavior.skip)) with
          | true =>
            rw [Bool.and_eq_true] at hdeB
            have hsk : cfg.on_dest_exists = .skip := by
              have h2 := hdeB.2
              cases hcs : cfg.on_dest_exists
              · rw [hcs] at h2; exact absurd h2 (by decide)
              · rfl
            have hdeD : (path_exists stD.fs (cfgD.dest_root ++ [m.folder_name]) ||
                stD.claimed_names.contains m.folder_name) = true := by
              rw [hfsD, hfdr, hcl, ← hdeq]; exact hdeB.1
            have hskD : cfgD.on_dest_exists = .skip := by rw [hfde]; exact hsk
            constructor
            · intro e he
              rw [move_folder_skip_exists cfg stL m hx hrs hmiss hnq hnq2 hdeB.1 hsk] at he
              exact absurd he (by simp)
            · intro r stL' hok
              rw [move_folder_skip_exists cfg stL m hx hrs hmiss hnq hnq2 hdeB.1 hsk] at hok
              simp only [Except.ok.injEq, Prod.mk.injEq] at hok
              obtain ⟨hr, hst⟩ := hok
              refine ⟨_, _, move_folder_skip_exists cfgD stD m hxD hrsD hmissD hnqD hnq2D
                hdeD hskD, ?_, ?_, ?_, ?_, ?_, ?_⟩
              · rw [← hr]; simp [paired_outcome, to_dry_status, hfdr]
              · exact hfsD
              · rw [← hst]; exact hcl
              · rw [← hst]; exact hqc
              · rw [← hst]; exact hinv
              · intro p hp1 hp2; rw [← hst]
          | false =>
            have hfreeeq : ∀ k, name_free stL.fs cfg.dest_root stL.claimed_names
                (cand_name m.folder_name k) = name_free fs0 cfg.dest_root
                stL.claimed_names (cand_name m.folder_name k) :=
              fun k => name_free_congr
                (hinv.1 (cand_name m.folder_name k) (cand_name_ne_dup hsafe k))
            have hreq : resolve_destination stL.fs cfg.dest_root m.folder_name
                stL.claimed_names = resolve_destination fs0 cfg.dest_root m.folder_name
                stL.claimed_names :=
              resolve_destination_congr stL.fs fs0 cfg.dest_root m.folder_name
                stL.claimed_names hfreeeq
            have hdeD : ((path_exists stD.fs (cfgD.dest_root ++ [m.folder_name]) ||
                stD.claimed_names.contains m.folder_name) &&
                (cfgD.on_dest_exists == DestExistsBehavior.skip)) = false := by
              rw [hfsD, hfdr, hcl, hfde, ← hdeq]; exact hdeB
            cases hsolve : resolve_destination stL.fs cfg.dest_root m.folder_name
                stL.claimed_names with
            | error e0 =>
              have hsolveD : resolve_destination stD.fs cfgD.dest_root m.folder_name
                  stD.claimed_names = .error e0 := by
                rw [hfsD, hfdr, hcl, ← hreq]; exact hsolve
              constructor
              · intro e he
                rw [move_folder_main_err cfg stL m e0 hx hrs hmiss hnq hnq2 hdeB
                  hsolve] at he
                simp only [Except.error.injEq] at he
                rw [← he]
                exact move_folder_main_err cfgD stD m e0 hxD hrsD hmissD hnqD hnq2D
                  hdeD hsolveD
              · intro r stL' hok
                rw [move_folder_main_err cfg stL m e0 hx hrs hmiss hnq hnq2 hdeB
                  hsolve] at hok
                exact absurd hok (by simp)
            | ok dp =>
              have hsolveD : resolve_destination stD.fs cfgD.dest_root m.folder_name
                  stD.claimed_names = .ok dp := by
                rw [hfsD, hfdr, hcl, ← hreq]; exact hsolve
              have hshape : dp = cfg.dest_root ++ [dp.getLastD ""] :=
                (resolve_ok_shape stL.fs cfg.dest_root m.folder_name stL.claimed_names
                  dp hsolve).1
              have hnm_ne : dp.getLastD "" ≠ DUPLICATES_FOLDER :=
                resolve_ok_last_ne_dup hsafe hsolve
              constructor
              · intro e he
                rw [move_folder_main_live cfg stL m dp hx hrs hmiss hnq hnq2 hdeB
                  hsolve hdryL] at he
                exact absurd he (by simp)
              · intro r stL' hok
                rw [move_folder_main_live cfg stL m dp hx hrs hmiss hnq hnq2 hdeB
                  hsolve hdryL] at hok
                simp only [Except.ok.injEq, Prod.mk.injEq] at hok
                obtain ⟨hr, hst⟩ := hok
                refine ⟨_, _, move_folder_main_dry cfgD stD m dp hxD hrsD hmissD hnqD
                  hnq2D hdeD hsolveD hdryD, ?_, ?_, ?_, ?_, ?_, ?_⟩
                · rw [← hr]
                  cases hb : (dp.getLastD "" == m.folder_name) <;>
                    simp [paired_outcome, to_dry_status, hb]
                · exact hfsD
                · rw [← hst, hcl]
                · rw [← hst]; exact hqc
                · rw [← hst]
                  constructor
                  · intro x hxdup
                    show (path_exists (do_move stL.fs m.source_path dp)
                        (cfg.dest_root ++ [x]) ||
                      (set_add stL.claimed_names (dp.getLastD "")).contains x) = _
                    by_cases hxnm : x = dp.getLastD ""
                    · subst hxnm
                      rw [set_add_contains_self, Bool.or_true, Bool.or_true]
                    · have hcontains : (set_add stL.claimed_names
                          (dp.getLastD "")).contains x = stL.claimed_names.contains x :=
                        set_add_contains_ne stL.claimed_names (dp.getLastD "") x hxnm
                      have hpe : path_exists (do_move stL.fs m.source_path dp)
                          (cfg.dest_root ++ [x]) =
                          path_exists stL.fs (cfg.dest_root ++ [x]) := by
                        apply pe_do_move_unrel
                        · exact (pfx_unrel_ext [x] hups husp).2
                        · exact (pfx_unrel_ext [x] hups husp).1
                        · rw [hshape, pfx_cancel, pfx_cons_cons,
                            beq_eq_false_iff_ne.mpr hxnm, Bool.false_and]
                        · rw [hshape, pfx_cancel, pfx_cons_cons,
                            beq_eq_false_iff_ne.mpr (fun h => hxnm h.symm),
                            Bool.false_and]
                      rw [hpe, hcontains]
                      exact hinv.1 x hxdup
                  · intro cid x
                    show (path_exists (do_move stL.fs m.source_path dp)
                        (cfg.dest_root ++ [DUPLICATES_FOLDER, cid, x]) ||
                      (qget stL.quarantine_claimed cid).contains x) = _
                    have hpe : path_exists (do_move stL.fs m.source_path dp)
                        (cfg.dest_root ++ [DUPLICATES_FOLDER, cid, x]) =
                        path_exists stL.fs
                          (cfg.dest_root ++ [DUPLICATES_FOLDER, cid, x]) := by
                      apply pe_do_move_unrel
                      · exact (pfx_unrel_ext [DUPLICATES_FOLDER, cid, x] hups husp).2
                      · exact (pfx_unrel_ext [DUPLICATES_FOLDER, cid, x] hups husp).1
                      · rw [hshape, pfx_cancel, pfx_cons_cons, pfx_cons_nil,
                          Bool.and_false]
                      · rw [hshape, pfx_cancel, pfx_cons_cons,
                          beq_eq_false_iff_ne.mpr hnm_ne, Bool.false_and]
                    rw [hpe]
                    exact hinv.2 cid x
                · intro p hp1 hp2
                  obtain ⟨hp1a, hp1b⟩ := path_unrelated_elim hp1
                  obtain ⟨hp2a, hp2b⟩ := path_unrelated_elim hp2
                  rw [← hst]
                  show path_exists (do_move stL.fs m.source_path dp) p = _
                  apply pe_do_move_unrel
                  · exact hp1a
                  · exact hp1b
                  · rw [hshape]; exact (pfx_unrel_ext [dp.getLastD ""] hp2a hp2b).1
                  · rw [hshape]; exact (pfx_unrel_ext [dp.getLastD ""] hp2a hp2b).2
        cases hdup : cfg.duplicate_case_ids.contains m.case_id with
        | false => exact hmain (by rw [hdup]; rfl) (by rw [hdup]; rfl)
        | true =>
          cases hact : cfg.duplicates_action with
          | skip =>
            have hdupD : cfgD.duplicate_case_ids.contains m.case_id = true := by
              rw [hfdc]; exact hdup
            have hactD : cfgD.duplicates_action = .skip := by rw [hfda]; exact hact
            constructor
            · intro e he
              rw [move_folder_dup_skip cfg stL m hx hrs hmiss hdup hact] at he
              exact absurd he (by simp)
            · intro r stL' hok
              rw [move_folder_dup_skip cfg stL m hx hrs hmiss hdup hact] at hok
              simp only [Except.ok.injEq, Prod.mk.injEq] at hok
              obtain ⟨hr, hst⟩ := hok
              refine ⟨_, _, move_folder_dup_skip cfgD stD m hxD hrsD hmissD hdupD
                hactD, ?_, ?_, ?_, ?_, ?_, ?_⟩
              · rw [← hr]; simp [paired_outcome, to_dry_status]
              · exact hfsD
              · rw [← hst]; exact hcl
              · rw [← hst]; exact hqc
              · rw [← hst]; exact hinv
              · intro p hp1 hp2; rw [← hst]
          | move_all => exact hmain (by rw [hdup, hact]; rfl) (by rw [hdup, hact]; rfl)
          | quarantine =>
            have hdupD : cfgD.duplicate_case_ids.contains m.case_id = true := by
              rw [hfdc]; exact hdup
            have hactD : cfgD.duplicates_action = .quarantine := by rw [hfda]; exact hact
            have hfreeeq : ∀ k, name_free stL.fs
                (cfg.dest_root ++ [DUPLICATES_FOLDER, m.case_id])
                (qget stL.quarantine_claimed m.case_id) (cand_name m.folder_name k) =
                name_free fs0 (cfg.dest_root ++ [DUPLICATES_FOLDER, m.case_id])
                (qget stL.quarantine_claimed m.case_id) (cand_name m.folder_name k) := by
              intro k
              apply name_free_congr
              rw [qpath_eq]
              exact hinv.2 m.case_id (cand_name m.folder_name k)
            have hreq : resolve_destination stL.fs
                (cfg.dest_root ++ [DUPLICATES_FOLDER, m.case_id]) m.folder_name
                (qget stL.quarantine_claimed m.case_id) =
                resolve_destination fs0
                (cfg.dest_root ++ [DUPLICATES_FOLDER, m.case_id]) m.folder_name
                (qget stL.quarantine_claimed m.case_id) :=
              resolve_destination_congr stL.fs fs0 _ m.folder_name _ hfreeeq
            cases hsolve : resolve_destination stL.fs
                (cfg.dest_root ++ [DUPLICATES_FOLDER, m.case_id]) m.folder_name
                (qget stL.quarantine_claimed m.case_id) with
            | error e0 =>
              have hsolveD : resolve_destination stD.fs
                  (cfgD.dest_root ++ [DUPLICATES_FOLDER, m.case_id]) m.folder_name
                  (qget stD.quarantine_claimed m.case_id) = .error e0 := by
                rw [hfsD, hfdr, hqc, ← hreq]; exact hsolve
              have hliveE : move_folder cfg stL m = .error e0 := by
                rw [move_folder_to_quarantine cfg stL m hx hrs hmiss hdup hact]
                exact mtq_err cfg stL m e0 (rqd_err cfg stL m.case_id m.folder_name e0
                  hsolve)
              have hdryE : move_folder cfgD stD m = .error e0 := by
                rw [move_folder_to_quarantine cfgD stD m hxD hrsD hmissD hdupD hactD]
                exact mtq_err cfgD stD m e0 (rqd_err cfgD stD m.case_id m.folder_name e0
                  hsolveD)
              constructor
              · intro e he
                rw [hliveE] at he
                simp only [Except.error.injEq] at he
                rw [← he]
                exact hdryE
              · intro r stL' hok
                rw [hliveE] at hok
                exact absurd hok (by simp)
            | ok dp =>
              have hsolveD : resolve_destination stD.fs
                  (cfgD.dest_root ++ [DUPLICATES_FOLDER, m.case_id]) m.folder_name
                  (qget stD.quarantine_claimed m.case_id) = .ok dp := by
                rw [hfsD, hfdr, hqc, ← hreq]; exact hsolve
              have hshape0 : dp = (cfg.dest_root ++ [DUPLICATES_FOLDER, m.case_id]) ++
                  [dp.getLastD ""] :=
                (resolve_ok_shape stL.fs _ m.folder_name _ dp hsolve).1
              have hshape : dp = cfg.dest_root ++
                  [DUPLICATES_FOLDER, m.case_id, dp.getLastD ""] :=
                hshape0.trans (qpath_eq cfg.dest_root m.case_id (dp.getLastD ""))
              constructor
              · intro e he
                rw [move_folder_quar_live cfg stL m dp hx hrs hmiss hdup hact hsolve
                  hdryL] at he
                exact absurd he (by simp)
              · intro r stL' hok
                rw [move_folder_quar_live cfg stL m dp hx hrs hmiss hdup hact hsolve
                  hdryL] at hok
                simp only [Except.ok.injEq, Prod.mk.injEq] at hok
                obtain ⟨hr, hst⟩ := hok
                refine ⟨_, _, move_folder_quar_dry cfgD stD m dp hxD hrsD hmissD hdupD
                  hactD hsolveD hdryD, ?_, ?_, ?_, ?_, ?_, ?_⟩
                · rw [← hr]
                  cases hb : (dp.getLastD "" == m.folder_name) <;>
                    simp [paired_outcome, to_dry_status, hb]
                · exact hfsD
                · rw [← hst]; exact hcl
                · rw [← hst, hqc]
                · rw [← hst]
                  constructor
                  · intro x hxdup
                    show (path_exists (do_move stL.fs m.source_path dp)
                        (cfg.dest_root ++ [x]) || stL.claimed_names.contains x) = _
                    have hpe : path_exists (do_move stL.fs m.source_path dp)
                        (cfg.dest_root ++ [x]) =
                        path_exists stL.fs (cfg.dest_root ++ [x]) := by
                      apply pe_do_move_unrel
                      · exact (pfx_unrel_ext [x] hups husp).2
                      · exact (pfx_unrel_ext [x] hups husp).1
                      · rw [hshape, pfx_cancel, pfx_cons_cons,
                          beq_eq_false_iff_ne.mpr hxdup, Bool.false_and]
                      · rw [hshape, pfx_cancel, pfx_cons_cons, pfx_cons_nil,
                          Bool.and_false]
                    rw [hpe]
                    exact hinv.1 x hxdup
                  · intro cid x
                    show (path_exists (do_move stL.fs m.source_path dp)
                        (cfg.dest_root ++ [DUPLICATES_FOLDER, cid, x]) ||
                      (qget (qset stL.quarantine_claimed m.case_id
                        (set_add (qget stL.quarantine_claimed m.case_id)
                          (dp.getLastD ""))) cid).contains x) = _
                    by_cases hcid : cid = m.case_id
                    · rw [hcid, qget_qset_self]
                      by_cases hxnm : x = dp.getLastD ""
                      · rw [hxnm, set_add_contains_self, Bool.or_true, Bool.or_true]
                      · rw [set_add_contains_ne _ _ _ hxnm]
                        have hpe : path_exists (do_move stL.fs m.source_path dp)
                            (cfg.dest_root ++ [DUPLICATES_FOLDER, m.case_id, x]) =
                            path_exists stL.fs
                              (cfg.dest_root ++ [DUPLICATES_FOLDER, m.case_id, x]) := by
                          apply pe_do_move_unrel
                          · exact (pfx_unrel_ext [DUPLICATES_FOLDER, m.case_id, x] hups
                              husp).2
                          · exact (pfx_unrel_ext [DUPLICATES_FOLDER, m.case_id, x] hups
                              husp).1
                          · rw [hshape, pfx_cancel, pfx_cons_cons, pfx_cons_cons,
                              pfx_cons_cons, beq_eq_false_iff_ne.mpr hxnm,
                              Bool.false_and, Bool.and_false, Bool.and_false]
                          · rw [hshape, pfx_cancel, pfx_cons_cons, pfx_cons_cons,
                              pfx_cons_cons,
                              beq_eq_false_iff_ne.mpr (fun h => hxnm h.symm),
                              Bool.false_and, Bool.and_false, Bool.and_false]
                        rw [hpe]
                        exact hinv.2 m.case_id x
                    · rw [qget_qset_ne _ _ _ _ hcid]
                      have hpe : path_exists (do_move stL.fs m.source_path dp)
                          (cfg.dest_root ++ [DUPLICATES_FOLDER, cid, x]) =
                          path_exists stL.fs
                            (cfg.dest_root ++ [DUPLICATES_FOLDER, cid, x]) := by
                        apply pe_do_move_unrel
                        · exact (pfx_unrel_ext [DUPLICATES_FOLDER, cid, x] hups husp).2
                        · exact (pfx_unrel_ext [DUPLICATES_FOLDER, cid, x] hups husp).1
                        · rw [hshape, pfx_cancel, pfx_cons_cons, pfx_cons_cons,
                            beq_eq_false_iff_ne.mpr hcid, Bool.false_and,
                            Bool.and_false]
                        · rw [hshape, pfx_cancel, pfx_cons_cons, pfx_cons_cons,
                            beq_eq_false_iff_ne.mpr (fun h => hcid h.symm),
                            Bool.false_and, Bool.and_false]
                      rw [hpe]
                      exact hinv.2 cid x
                · intro p hp1 hp2
                  obtain ⟨hp1a, hp1b⟩ := path_unrelated_elim hp1
                  obtain ⟨hp2a, hp2b⟩ := path_unrelated_elim hp2
                  rw [← hst]
                  show path_exists (do_move stL.fs m.source_path dp) p = _
                  apply pe_do_move_unrel
                  · exact hp1a
                  · exact hp1b
                  · rw [hshape]
                    exact (pfx_unrel_ext
                      [DUPLICATES_FOLDER, m.case_id, dp.getLastD ""] hp2a hp2b).1
                  · rw [hshape]
                    exact (pfx_unrel_ext
                      [DUPLICATES_FOLDER, m.case_id, dp.getLastD ""] hp2a hp2b).2

end FolderMover


namespace FolderMover

theorem move_all_go_paired (cfg cfgD : MoverConfig) (fs0 : FS)
    (hfdr : cfgD.dest_root = cfg.dest_root)
    (hfex : cfgD.exclude_patterns = cfg.exclude_patterns)
    (hfam : cfgD.already_moved_paths = cfg.already_moved_paths)
    (hfde : cfgD.on_dest_exists = cfg.on_dest_exists)
    (hfda : cfgD.duplicates_action = cfg.duplicates_action)
    (hfdc : cfgD.duplicate_case_ids = cfg.duplicate_case_ids)
    (hfmm : cfgD.max_moves = cfg.max_moves)
    (hdryL : cfg.dry_run = false) (hdryD : cfgD.dry_run = true) :
    ∀ (ms : List FolderMatch) (stL stD : MoverState) (ops : Nat)
      (accL accD : List MoveResult),
      stD.fs = fs0 → stD.claimed_names = stL.claimed_names →
      stD.quarantine_claimed = stL.quarantine_claimed →
      sync_inv cfg.dest_root fs0 stL.claimed_names stL.quarantine_claimed stL.fs →
      (∀ m' ∈ ms, path_exists stL.fs m'.source_path = path_exists fs0 m'.source_path) →
      List.Pairwise (fun a b => path_unrelated a.source_path b.source_path = true) ms →
      (∀ m' ∈ ms, path_unrelated m'.source_path cfg.dest_root = true) →
      (∀ m' ∈ ms, avoids_quarantine_name m'.folder_name = true) →
      List.Forall₂ (fun a b => paired_outcome a b = true) accL accD →
      paired_runs (move_all_go cfg stL ms ops accL)
        (move_all_go cfgD stD ms ops accD) fs0 := by
  intro ms
  induction ms with
  | nil =>
    intro stL stD ops accL accD hfsD hcl hqc hinv hsrcs hpw hroot hsafe hacc
    rw [move_all_go, move_all_go]
    exact ⟨hacc, hfsD, hcl, hqc⟩
  | cons m rest ih =>
    intro stL stD ops accL accD hfsD hcl hqc hinv hsrcs hpw hroot hsafe hacc
    rw [move_all_go, move_all_go, hfmm]
    cases hb : budget_reached cfg.max_moves ops with
    | true =>
      simp only [hb, if_true]
      exact ⟨hacc, hfsD, hcl, hqc⟩
    | false =>
      simp only [hb, Bool.false_eq_true, if_false]
      have hstep := move_folder_paired cfg cfgD fs0 stL stD m hfdr hfex hfam hfde hfda
        hfdc hdryL hdryD hfsD hcl hqc hinv (hsrcs m (by simp)) (hroot m (by simp))
        (hsafe m (by simp))
      cases hmf : move_folder cfg stL m with
      | error e =>
        rw [hstep.1 e hmf]
        exact rfl
      | ok pr =>
        obtain ⟨r, stL'⟩ := pr
        obtain ⟨r', stD', hD, hpair, hfsD', hcl', hqc', hinv', hpres⟩ :=
          hstep.2 r stL' hmf
        rw [hD]
        have hst' : r'.status = to_dry_status r.status := by
          have h4 := hpair
          simp only [paired_outcome, Bool.and_eq_true, beq_iff_eq] at h4
          exact h4.2
        show paired_runs
          (move_all_go cfg stL' rest
            (if op_statuses.contains r.status then ops + 1 else ops) (accL ++ [r]))
          (move_all_go cfgD stD' rest
            (if op_statuses.contains r'.status then ops + 1 else ops) (accD ++ [r'])) fs0
        have hops : (if op_statuses.contains r'.status then ops + 1 else ops) =
            (if op_statuses.contains r.status then ops + 1 else ops) := by
          rw [hst', op_statuses_to_dry]
        rw [hops]
        refine ih stL' stD' _ (accL ++ [r]) (accD ++ [r']) hfsD' hcl' hqc' hinv'
          ?_ (List.pairwise_cons.mp hpw).2 (fun m' hm' => hroot m' (by simp [hm']))
          (fun m' hm' => hsafe m' (by simp [hm']))
          (List.rel_append hacc (List.Forall₂.cons hpair List.Forall₂.nil))
        intro m' hm'
        have hrel := (List.pairwise_cons.mp hpw).1 m' hm'
        rw [hpres m'.source_path (by rw [path_unrelated_symm]; exact hrel)
          (hroot m' (by simp [hm']))]
        exact hsrcs m' (by simp [hm'])

end FolderMover

/-- C8 (amended): starting from the same filesystem with a fresh engine, a
dry run pairs with a live run outcome-for-outcome — same identifiers, same
source paths, same resolved destination-path decisions, and the dry-run
variant of each live status (DRY_RUN for SUCCESS, DRY_RUN_RENAMED for
SUCCESS_RENAMED, DRY_RUN_QUARANTINE for QUARANTINED,
DRY_RUN_QUARANTINE_RENAMED for QUARANTINED_RENAMED, skip statuses
unchanged), with the dry run leaving the filesystem untouched and both runs
claiming the same names — provided the matches' source paths are pairwise
prefix-unrelated (no shared or nested sources) and prefix-unrelated to the
destination root, and no folder name can resolve to the quarantine folder
name.  Without those provisos the symmetry fails (see the counterexample:
two matches sharing a source path give SKIPPED_MISSING against
DRY_RUN_RENAMED). -/
theorem c8_dry_run_symmetry (cfg cfgD : MoverConfig) (fs0 : FS)
    (ms : List FolderMatch)
    (hD : cfgD = { cfg with dry_run := true }) (hlive : cfg.dry_run = false)
    (h1 : List.Pairwise (fun a b => path_unrelated a.source_path b.source_path = true) ms)
    (h2 : ∀ m ∈ ms, path_unrelated m.source_path cfg.dest_root = true)
    (h3 : ∀ m ∈ ms, avoids_quarantine_name m.folder_name = true) :
    paired_runs (FolderMover.move_all cfg (initial_state fs0) ms)
      (FolderMover.move_all cfgD (initial_state fs0) ms) fs0 := by
  subst hD
  rw [FolderMover.move_all, FolderMover.move_all]
  exact FolderMover.move_all_go_paired cfg { cfg with dry_run := true } fs0 rfl rfl rfl
    rfl rfl rfl rfl hlive rfl ms (initial_state fs0) (initial_state fs0) 0 [] []
    rfl rfl rfl ⟨fun x _ => rfl, fun cid x => rfl⟩ (fun m' _ => rfl) h1 h2 h3
    List.Forall₂.nil

theorem c8_dry_run_symmetry_witness :
    paired_runs (FolderMover.move_all c8cfgL (initial_state c8fs0) [c8wm])
      (FolderMover.move_all c8cfgD (initial_state c8fs0) [c8wm]) c8fs0 :=
  c8_dry_run_symmetry c8cfgL c8cfgD c8fs0 [c8wm] rfl rfl (by simp) (by decide)
    (by decide)

end FMover
